import Mathlib

/-!
Verification development for the Spotify HAR extractor (src/spotify_har.py).

The Python program is shallowly embedded: JSON-like dynamically typed values
become the inductive type PyVal; Python exceptions become an Except monad over
PyErr; bytes become List Nat; the external collaborators (base64 decoding,
UTF-8 decoding, the JSON parse routine, the HTTP fetch, the ffmpeg transcode,
and the clock) are passed in explicitly as function arguments.  Every function
below mirrors the corresponding Python method of class SpotifyHARExtractor;
file writes and console printing are omitted (pure side effects on external
sinks), with the produced file paths and byte contents kept as return values.
-/

/-- Python exception kinds that the modelled code can raise. -/
inductive PyErr where
  | typeError
  | attributeError
  | keyError
  | valueError
  deriving DecidableEq, Repr

/-- Dynamically typed JSON-like values, the shape of parsed HAR data
(json.load results) flowing through the Python code.  Dict entries keep
insertion order; keys of real parsed JSON dicts are unique (json.loads keeps
the last duplicate), so lookups below take the first match under that
uniqueness assumption. -/
inductive PyVal where
  | str (s : String)
  | int (n : Int)
  | bool (b : Bool)
  | null
  | list (xs : List PyVal)
  | dict (kvs : List (String × PyVal))

/-- ASCII lowercasing, modelling Python str.lower on the ASCII strings this
development exercises (Char.toLower only affects A-Z). -/
def lowerAscii (s : String) : String :=
  String.mk (s.toList.map Char.toLower)

/-- Containment of one list in another as a contiguous run, the semantics of
the Python substring test (needle in hay) for strings and for bytes. -/
def listContains {α : Type} [BEq α] (needle : List α) : List α → Bool
  | [] => needle.isEmpty
  | c :: rest => needle.isPrefixOf (c :: rest) || listContains needle rest

/-- Python substring containment: strContains n h models (n in h) for str. -/
def strContains (needle hay : String) : Bool :=
  listContains needle.toList hay.toList

/-- First-match association lookup with default, the dict part of Python
dict.get(key, default) (parsed-JSON dicts have unique keys). -/
def lookupD : List (String × PyVal) → String → PyVal → PyVal
  | [], _, d => d
  | (k, v) :: rest, key, d => if k = key then v else lookupD rest key d

/-- Association lookup without default, for Python subscripting d[key]. -/
def lookupOpt : List (String × PyVal) → String → Option PyVal
  | [], _ => none
  | (k, v) :: rest, key => if k = key then some v else lookupOpt rest key

/-- Python attribute-style v.get(key, default): only dicts have .get, anything
else raises AttributeError. -/
def pyGet (v : PyVal) (key : String) (default : PyVal) : Except PyErr PyVal :=
  match v with
  | .dict kvs => .ok (lookupD kvs key default)
  | _ => .error .attributeError

/-- Python subscripting v[key] with a string key: KeyError on a dict miss,
TypeError on non-dicts (string and list subscripts need integers). -/
def pySubscript (v : PyVal) (key : String) : Except PyErr PyVal :=
  match v with
  | .dict kvs =>
    match lookupOpt kvs key with
    | some r => .ok r
    | none => .error .keyError
  | _ => .error .typeError

/-- Python membership (needle in v) for a string needle: key test on dicts,
equality scan on lists (a str equals only an equal str), substring test on
strings, TypeError otherwise. -/
def pyInV (needle : String) (v : PyVal) : Except PyErr Bool :=
  match v with
  | .dict kvs => .ok (kvs.any (fun kv => kv.1 == needle))
  | .list xs => .ok (xs.any (fun x => match x with
      | .str t => t == needle
      | _ => false))
  | .str s => .ok (strContains needle s)
  | _ => .error .typeError

/-- Python truthiness of a value. -/
def pyTruthy : PyVal → Bool
  | .str s => !s.isEmpty
  | .int n => n != 0
  | .bool b => b
  | .null => false
  | .list xs => !xs.isEmpty
  | .dict kvs => !kvs.isEmpty

/-- Python len(v): TypeError on values without a length. -/
def pyLen (v : PyVal) : Except PyErr Nat :=
  match v with
  | .str s => .ok s.length
  | .list xs => .ok xs.length
  | .dict kvs => .ok kvs.length
  | _ => .error .typeError

/-- Python iteration (for x in v): list elements, string characters (as
one-character strings), dict keys; TypeError otherwise. -/
def pyIter (v : PyVal) : Except PyErr (List PyVal) :=
  match v with
  | .list xs => .ok xs
  | .str s => .ok (s.toList.map (fun c => .str (String.mk [c])))
  | .dict kvs => .ok (kvs.map (fun kv => .str kv.1))
  | _ => .error .typeError

/-- Python v.lower(): only strings have .lower. -/
def pyLowerV (v : PyVal) : Except PyErr String :=
  match v with
  | .str s => .ok (lowerAscii s)
  | _ => .error .attributeError

/-- Python equality test of a value against a string literal: cross-type
comparisons with str are False. -/
def pyEqStr (v : PyVal) (s : String) : Bool :=
  match v with
  | .str t => t == s
  | _ => false

/-- Image CDN host list of is_spotify_image_url (source lines 131-140). -/
def spotifyImageDomains : List String :=
  ["i.scdn.co",
   "mosaic.scdn.co",
   "seed-mix-image.spotifycdn.com",
   "lineup-images.scdn.co",
   "thisis-images.scdn.co",
   "charts-images.scdn.co",
   "daily-mix.scdn.co",
   "mixed-media-images.spotifycdn.com"]

/-- Video CDN host list of is_spotify_video_url (source lines 146-151). -/
def spotifyVideoDomains : List String :=
  ["video-akpcw.spotifycdn.com",
   "video-fa723fc0e0b4479496acdae1c1f.spotifycdn.com",
   "canvas.scdn.co",
   "canvaz.scdn.co"]

/-- Short-circuiting any(domain in url for domain in domains) over a PyVal
url, as in is_spotify_image_url and is_spotify_video_url. -/
def anyDomainIn (domains : List String) (url : PyVal) : Except PyErr Bool :=
  match domains with
  | [] => .ok false
  | d :: rest => do
    let b ← pyInV d url
    if b then pure true else anyDomainIn rest url

/-- Embedding of is_spotify_image_url (source lines 129-142), lifted to the
dynamically typed url actually passed in. -/
def isSpotifyImageUrlV (url : PyVal) : Except PyErr Bool :=
  anyDomainIn spotifyImageDomains url

/-- Embedding of is_spotify_video_url (source lines 144-153). -/
def isSpotifyVideoUrlV (url : PyVal) : Except PyErr Bool :=
  anyDomainIn spotifyVideoDomains url

/-- Embedding of is_spotify_image_url restricted to string urls, the form used
on urls found inside JSON bodies (find_images_in_json passes str values). -/
def isSpotifyImageUrlS (url : String) : Bool :=
  spotifyImageDomains.any (fun d => strContains d url)

/-- Curated key set of find_images_in_json (source line 192). -/
def imageKeys : List String :=
  ["image", "images", "cover_art", "avatar", "picture", "artwork"]

/-- Set-insertion into the found_urls accumulator: Python set.add modelled on
an insertion-ordered duplicate-free list. -/
def addUrl (found : List String) (u : String) : List String :=
  if u ∈ found then found else found ++ [u]

mutual

/-- Embedding of find_images_in_json (source lines 188-200): recursively walk
a JSON-like value, collecting values of curated keys that are strings passing
is_spotify_image_url; a curated key whose value is a dict or list is not
recursed into (the elif in the source).  The Python function mutates
self.found_urls; here the accumulator is threaded explicitly. -/
def findImagesInJson (v : PyVal) (found : List String) : List String :=
  match v with
  | .dict kvs => findImagesKvs kvs found
  | .list xs => findImagesList xs found
  | _ => found

/-- Dict-item loop of find_images_in_json. -/
def findImagesKvs (kvs : List (String × PyVal)) (found : List String) : List String :=
  match kvs with
  | [] => found
  | (k, v) :: rest =>
    let found1 :=
      if k ∈ imageKeys then
        match v with
        | .str s => if isSpotifyImageUrlS s then addUrl found s else found
        | _ => found
      else
        match v with
        | .dict _ => findImagesInJson v found
        | .list _ => findImagesInJson v found
        | _ => found
    findImagesKvs rest found1

/-- List-item loop of find_images_in_json. -/
def findImagesList (xs : List PyVal) (found : List String) : List String :=
  match xs with
  | [] => found
  | x :: rest => findImagesList rest (findImagesInJson x found)

end

/-- Lowercase-hex-or-digit character class [a-f0-9] of the identifier
patterns in find_image_patterns_in_text. -/
def isHexLower (c : Char) : Bool :=
  c.isDigit || (Char.ofNat 97 ≤ c && c ≤ Char.ofNat 102)

/-- Fixed-shape regex match attempt at the head of the input: a literal
followed by exactly n characters of a class.  Returns the matched text and the
rest of the input after the match. -/
def matchFixedAt (lit : List Char) (n : Nat) (cls : Char → Bool) (s : List Char) :
    Option (List Char × List Char) :=
  if lit.isPrefixOf s then
    let rest := s.drop lit.length
    let run := rest.take n
    if run.length = n && run.all cls then
      some (lit ++ run, rest.drop n)
    else none
  else none

/-- Left-to-right non-overlapping scan, the semantics of re.findall for the
fixed-length patterns of find_image_patterns_in_text (literal prefix plus an
exact repetition count: no backtracking choice exists).  Fuel is the input
length; each step consumes at least one character, so the fuel suffices. -/
def findallFixedAux (lit : List Char) (n : Nat) (cls : Char → Bool) :
    Nat → List Char → List (List Char)
  | 0, _ => []
  | _ + 1, [] => []
  | fuel + 1, c :: rest =>
    match matchFixedAt lit n cls (c :: rest) with
    | some (m, after) => m :: findallFixedAux lit n cls fuel after
    | none => findallFixedAux lit n cls fuel rest

/-- re.findall of one fixed-shape hex-identifier pattern over a text. -/
def findallFixed (lit : List Char) (n : Nat) (s : List Char) : List (List Char) :=
  findallFixedAux lit n isHexLower s.length s

/-- Identifier patterns of find_image_patterns_in_text (source lines 205-209):
each is a literal prefix plus an exact count of [a-f0-9] characters. -/
def spotifyHexPatterns : List (List Char × Nat) :=
  [("ab67616".toList, 32),
   ("ab6761610000".toList, 24),
   ("ab67616d".toList, 32)]

/-- Embedding of find_image_patterns_in_text (source lines 202-223): for every
match of every pattern, three canonical urls are derived from fixed templates
and added to the found_urls set. -/
def findImagePatternsInText (text : String) (found : List String) : List String :=
  spotifyHexPatterns.foldl (fun fnd pat =>
    (findallFixed pat.1 pat.2 text.toList).foldl (fun fnd2 m =>
      let ms := String.mk m
      addUrl (addUrl (addUrl fnd2
        ("https://i.scdn.co/image/" ++ ms))
        ("https://mosaic.scdn.co/640/" ++ ms))
        ("https://mosaic.scdn.co/300/" ++ ms)) fnd) found

/-- External collaborators of the program, passed in explicitly: the base64
decoder (None models a raised binascii error), the UTF-8 byte decoder, the
JSON parse routine of the json module (None models a parse error), and three
pieces of stdlib Unicode/host validation whose tables are outside this
embedding: str.isalnum on code points above ASCII (the Unicode part of the
regex word class), and the two netloc validators of urllib.parse
(ipaddress-based bracketed-host check, NFKC netloc check), each returning
true when the corresponding Python routine does not raise. -/
structure Collab where
  b64 : String → Option (List Nat)
  utf8 : List Nat → Option String
  jsonLoads : String → Option PyVal
  unicodeAlnum : Char → Bool
  bracketHostOk : String → Bool
  nfkcNetlocOk : String → Bool

/-- Trivial collaborator instantiation used by concrete evaluations: decoding
always fails, no non-ASCII code point is alphanumeric except U+00E9 (the
letter e-acute, which Python's Unicode tables classify as alphanumeric), and
both netloc validators accept. -/
def collab0 : Collab :=
  ⟨fun _ => none, fun _ => none, fun _ => none,
   fun c => c.toNat = 233, fun _ => true, fun _ => true⟩

/-- Word-character class of the Python regex \x5cw (Unicode flavour):
A-Za-z0-9_ on ASCII, and str.isalnum per the collaborator above ASCII. -/
def pyWordChar (collab : Collab) (c : Char) : Bool :=
  if c.toNat < 128 then c.isAlpha || c.isDigit || c == '_'
  else collab.unicodeAlnum c

/-- Characters the WHATWG C0-control-or-space lstrip of urlsplit removes. -/
def isC0OrSpace (c : Char) : Bool := c.toNat ≤ 32

/-- Scheme characters accepted by urlsplit (letters, digits, plus, dash,
dot). -/
def schemeChar (c : Char) : Bool :=
  c.isAlpha || c.isDigit || c == '+' || c == '-' || c == '.'

/-- Index of the first element satisfying p, or the length when absent; the
str.find convention with the miss mapped to the end of the string. -/
def findIdxOrLen {α : Type} (p : α → Bool) (l : List α) : Nat :=
  match l.findIdx? p with
  | some i => i
  | none => l.length

/-- Split of a character list at every separator, Python str.split(sep) for a
one-character separator: always at least one (possibly empty) piece. -/
def splitChar (sep : Char) : List Char → List (List Char)
  | [] => [[]]
  | c :: rest =>
    let r := splitChar sep rest
    if c = sep then [] :: r
    else
      match r with
      | [] => [[c]]
      | piece :: more => (c :: piece) :: more

/-- Stripping and control-byte removal urlsplit applies first: WHATWG
C0-control-or-space lstrip, then removal of every tab, CR and LF. -/
def urlPreprocessed (url : String) : List Char :=
  (url.toList.dropWhile isC0OrSpace).filter
    (fun c => !(c == Char.ofNat 9 || c == Char.ofNat 13 || c == Char.ofNat 10))

/-- Scheme strip of urlsplit: when a colon follows a valid scheme prefix
(ASCII letter head, scheme characters up to the colon), the text after the
colon remains. -/
def urlAfterScheme (cs : List Char) : List Char :=
  match cs.findIdx? (fun c => c == ':') with
  | some i =>
    if 0 < i && (match cs.head? with
        | some c0 => c0.toNat < 128 && c0.isAlpha
        | none => false) && (cs.take i).all schemeChar
    then cs.drop (i + 1) else cs
  | none => cs

/-- Netloc split of urlsplit: after a leading double slash the netloc runs to
the first slash, question mark or hash; the pair is netloc and remainder. -/
def urlNetlocRest (cs : List Char) : List Char × List Char :=
  if ['/', '/'].isPrefixOf cs then
    let body := cs.drop 2
    let d := findIdxOrLen (fun c => c == '/' || c == '?' || c == '#') body
    (body.take d, body.drop d)
  else ([], cs)

/-- Path component computed by urlparse: fragment split, query split, then
the params split on the last segment. -/
def urlPathOf (url : String) : List Char :=
  let rest := (urlNetlocRest (urlAfterScheme (urlPreprocessed url))).2
  let rest2 := if rest.contains '#' then rest.takeWhile (fun c => !(c == '#')) else rest
  let path0 := if rest2.contains '?' then rest2.takeWhile (fun c => !(c == '?')) else rest2
  if path0.contains ';' then
    if path0.contains '/' then
      let j := path0.length - 1 - findIdxOrLen (fun c => c == '/') path0.reverse
      match (path0.drop j).findIdx? (fun c => c == ';') with
      | some k => path0.take (j + k)
      | none => path0
    else path0.take (findIdxOrLen (fun c => c == ';') path0)
  else path0

/-- Embedding of urllib.parse.urlparse restricted to the path component (the
only component generate_filename reads), following CPython 3.11 urlsplit plus
the params split of urlparse: preprocessing, scheme strip, netloc strip with
bracket and NFKC validation (ValueError on failure, via the stdlib
collaborators), then the fragment, query and params splits. -/
def pyUrlparsePath (collab : Collab) (url : String) : Except PyErr String :=
  let netloc := (urlNetlocRest (urlAfterScheme (urlPreprocessed url))).1
  let hasL := netloc.contains '['
  let hasR := netloc.contains ']'
  if hasL != hasR then .error .valueError
  else if hasL && hasR &&
      !collab.bracketHostOk (String.mk
        (((netloc.dropWhile (fun c => !(c == '['))).drop 1).takeWhile (fun c => !(c == ']')))) then
    .error .valueError
  else if !netloc.isEmpty && !netloc.all (fun c => c.toNat < 128) &&
      !collab.nfkcNetlocOk (String.mk netloc) then
    .error .valueError
  else .ok (String.mk (urlPathOf url))

/-- Pure tail of generate_filename after the url parse: last path segment,
extension strip, sanitization, fallback name, extension append. -/
def buildFilename (collab : Collab) (path : String) (ext : String) (now : Nat) : String :=
  let stripped := ((path.toList.dropWhile (fun c => c == '/')).reverse.dropWhile
      (fun c => c == '/')).reverse
  let parts := splitChar '/' stripped
  let lastPart := parts.getLastD []
  let base :=
    if !lastPart.isEmpty then
      if lastPart.contains '.' then
        lastPart.take (lastPart.length - 1 - findIdxOrLen (fun c => c == '.') lastPart.reverse)
      else lastPart
    else ("spotify_media_" ++ Nat.repr now).toList
  let safe := base.map (fun c =>
    if pyWordChar collab c || c == '-' || c == '_' || c == '.' then c else '_')
  String.mk (safe ++ ext.toList)

/-- Embedding of generate_filename (source lines 339-354): last path segment
with its extension stripped, sanitized by the Unicode-aware word-class regex,
with a clock-derived fallback name; the inferred extension is appended.  The
urlparse call can raise ValueError out of this function. -/
def pyGenerateFilename (collab : Collab) (url ext : String) (now : Nat) :
    Except PyErr String := do
  let path ← pyUrlparsePath collab url
  return buildFilename collab path ext now

/-- Magic-byte sniffing order of get_file_extension (source lines 324-337):
JPEG SOI, PNG signature, GIF8 header, RIFF with a WEBP marker in the first 20
bytes, the EBML header, the ISO ftyp box marker, then the generic binary
extension. -/
def sniffExtension (data : List Nat) : String :=
  if [255, 216, 255].isPrefixOf data then ".jpg"
  else if [137, 80, 78, 71].isPrefixOf data then ".png"
  else if [71, 73, 70, 56].isPrefixOf data then ".gif"
  else if [82, 73, 70, 70].isPrefixOf data && listContains [87, 69, 66, 80] (data.take 20) then
    ".webp"
  else if [26, 69, 223, 163].isPrefixOf data then ".webm"
  else if [0, 0, 0].isPrefixOf data && listContains [102, 116, 121, 112] (data.take 20) then
    ".mp4"
  else ".bin"

/-- Ordered content-type substring table of get_file_extension (source lines
311-322): first matching needle wins. -/
def contentTypeTable : List (String × String) :=
  [("jpeg", ".jpg"), ("jpg", ".jpg"), ("png", ".png"), ("gif", ".gif"),
   ("webp", ".webp"), ("webm", ".webm"), ("mp4", ".mp4")]

/-- Ordered scan of the content-type table, the elif chain of source lines
311-322.  The content type is a dynamically typed value at one call site
(save_embedded_media passes a HAR header value), so the membership tests go
through pyInV and can raise. -/
def extFromContentType (ct : PyVal) : List (String × String) → Except PyErr (Option String)
  | [] => .ok none
  | (needle, e) :: rest => do
    if ← pyInV needle ct then pure (some e) else extFromContentType ct rest

/-- Embedding of get_file_extension (source lines 308-337): content-type
substring table first; magic-byte sniffing only when no table entry matched. -/
def getFileExtension (ct : PyVal) (data : List Nat) : Except PyErr String := do
  match ← extFromContentType ct contentTypeTable with
  | some e => pure e
  | none => pure (sniffExtension data)

/-- One media-info dict built by extract_spotify_images (source lines 69-77
and 95-103) and later enriched in place by download_media.  Keys absent from
the Python dict are modelled by Option fields and by the false default of the
is_video_segment flag (download_media only ever stores True there).  Fields
holding arbitrary HAR-derived values keep the dynamic PyVal type. -/
structure MediaCandidate where
  url : PyVal
  method : PyVal := .str "GET"
  status : PyVal := .int 0
  content_type : PyVal := .str ""
  size : PyVal := .int 0
  timestamp : PyVal := .str ""
  headers : PyVal := .list []
  content : Option PyVal := none
  decoded_size : Option Nat := none
  decoded_data : Option (List Nat) := none
  is_video_segment : Bool := false
  segment_type : Option String := none
  segment_data : Option (List Nat) := none

/-- Header scan loop of get_content_type (source lines 155-161). -/
def findContentType : List PyVal → Except PyErr PyVal
  | [] => .ok (.str "")
  | h :: rest => do
    let name ← pyGet h "name" (.str "")
    let lowered ← pyLowerV name
    if lowered == "content-type" then pyGet h "value" (.str "")
    else findContentType rest

/-- Embedding of get_content_type (source lines 155-161): first header whose
lowercased name is content-type, else the empty string. -/
def getContentTypeV (response : PyVal) : Except PyErr PyVal := do
  let headers ← pyGet response "headers" (.list [])
  let items ← pyIter headers
  findContentType items

/-- Construction of the image_info dict (source lines 69-91): the base dict,
then the content block with its inner base64-decode attempt whose failure is
swallowed (the bare except at line 88). -/
def mkImageInfo (collab : Collab) (request response entry url : PyVal) :
    Except PyErr MediaCandidate := do
  let method ← pyGet request "method" (.str "GET")
  let status ← pyGet response "status" (.int 0)
  let ctype ← getContentTypeV response
  let size ← pyGet response "bodySize" (.int 0)
  let ts ← pyGet entry "startedDateTime" (.str "")
  let hdrs ← pyGet response "headers" (.list [])
  let base : MediaCandidate :=
    { url := url, method := method, status := status, content_type := ctype,
      size := size, timestamp := ts, headers := hdrs }
  let content ← pyGet response "content" (.dict [])
  if pyTruthy content then do
    let c := { base with content := some content }
    let enc ← pyGet content "encoding" .null
    if pyEqStr enc "base64" then do
      let txt ← pyGet content "text" .null
      if pyTruthy txt then
        match txt with
        | .str t =>
          match collab.b64 t with
          | some data =>
            pure { c with decoded_size := some data.length, decoded_data := some data }
          | none => pure c
        | _ => pure c
      else pure c
    else pure c
  else pure base

/-- Construction of the video_info dict (source lines 95-116): the content
block only runs when the content is truthy and carries truthy text. -/
def mkVideoInfo (collab : Collab) (request response entry url : PyVal) :
    Except PyErr MediaCandidate := do
  let method ← pyGet request "method" (.str "GET")
  let status ← pyGet response "status" (.int 0)
  let ctype ← getContentTypeV response
  let size ← pyGet response "bodySize" (.int 0)
  let ts ← pyGet entry "startedDateTime" (.str "")
  let hdrs ← pyGet response "headers" (.list [])
  let base : MediaCandidate :=
    { url := url, method := method, status := status, content_type := ctype,
      size := size, timestamp := ts, headers := hdrs }
  let content ← pyGet response "content" (.dict [])
  if pyTruthy content then do
    let txt ← pyGet content "text" .null
    if pyTruthy txt then do
      let c := { base with content := some content }
      let enc ← pyGet content "encoding" .null
      if pyEqStr enc "base64" then
        match txt with
        | .str t =>
          match collab.b64 t with
          | some data =>
            pure { c with decoded_size := some data.length, decoded_data := some data }
          | none => pure c
        | _ => pure c
      else pure c
    else pure base
  else pure base

/-- Embedding of extract_api_image_references (source lines 163-186): decode
the body text, try the JSON route, fall back to the free-text pattern scan;
the outer try swallows every error, and no found_urls mutation precedes any
raise inside, so the error result returns the accumulator unchanged. -/
def extractApiImageReferences (collab : Collab) (entry : PyVal)
    (found : List String) : List String :=
  let run : Except PyErr (List String) := do
    let response ← pyGet entry "response" (.dict [])
    let content ← pyGet response "content" (.dict [])
    let txt ← pyGet content "text" .null
    if pyTruthy txt then do
      if pyEqStr (← pyGet content "encoding" .null) "base64" then
        match txt with
        | .str t =>
          match collab.b64 t with
          | some bytes =>
            match collab.utf8 bytes with
            | some s =>
              pure (match collab.jsonLoads s with
                | some j => findImagesInJson j found
                | none => findImagePatternsInText s found)
            | none => pure found
          | none => pure found
        | _ => throw .typeError
      else
        match txt with
        | .str s =>
          pure (match collab.jsonLoads s with
            | some j => findImagesInJson j found
            | none => findImagePatternsInText s found)
        | _ => pure found
    else pure found
  match run with
  | .ok r => r
  | .error _ => found

/-- Per-entry body of the extract_spotify_images loop (source lines 62-124),
before the per-entry error handling is applied. -/
def processEntryE (collab : Collab) (entry : PyVal) (found : List String) :
    Except PyErr (Option MediaCandidate × List String) := do
  let request ← pyGet entry "request" (.dict [])
  let response ← pyGet entry "response" (.dict [])
  let url ← pyGet request "url" (.str "")
  if ← isSpotifyImageUrlV url then do
    let c ← mkImageInfo collab request response entry url
    return (some c, found)
  else if ← isSpotifyVideoUrlV url then do
    let c ← mkVideoInfo collab request response entry url
    return (some c, found)
  else do
    let isApi1 ← pyInV "api.spotify.com" url
    let isApi ← if isApi1 then pure true else pyInV "spclient" url
    if isApi then
      return (none, extractApiImageReferences collab entry found)
    else
      return (none, found)

/-- Per-entry processing with the try/except of source lines 62-124: an error
skips the entry (no found_urls mutation precedes any uncaught raise). -/
def processEntry (collab : Collab) (entry : PyVal) (found : List String) :
    Option MediaCandidate × List String :=
  match processEntryE collab entry found with
  | .ok r => r
  | .error _ => (none, found)

/-- Entry loop of extract_spotify_images, accumulating the images list and
the found_urls set. -/
def extractLoop (collab : Collab) :
    List PyVal → List MediaCandidate × List String → List MediaCandidate × List String
  | [], acc => acc
  | e :: rest, (cs, found) =>
    match processEntry collab e found with
    | (some c, found2) => extractLoop collab rest (cs ++ [c], found2)
    | (none, found2) => extractLoop collab rest (cs, found2)

/-- Embedding of extract_spotify_images (source lines 51-127): the format
check (whose membership tests can raise on non-container values), then the
per-entry loop.  Printing is dropped; the len call on the entries value is
kept because it can raise before the loop runs. -/
def extractSpotifyImages (collab : Collab) (har : PyVal) (found : List String) :
    Except PyErr (List MediaCandidate × List String) := do
  let hasLog ← pyInV "log" har
  let bad ←
    if !hasLog then pure true
    else do
      let logv ← pySubscript har "log"
      let hasEntries ← pyInV "entries" logv
      pure (!hasEntries)
  if bad then return ([], found)
  let logv ← pySubscript har "log"
  let entriesV ← pySubscript logv "entries"
  let _ ← pyLen entriesV
  let items ← pyIter entriesV
  return extractLoop collab items ([], found)

/-- Result of the HTTP fetch collaborator used by download_media: status
code, the content-type response header, and the body bytes; None models a
raised requests exception. -/
structure FetchResponse where
  status : Nat
  contentType : String
  body : List Nat

/-- Conversion of a digit run to the number int() parses from it. -/
def digitsToNat (run : List Char) : Nat :=
  run.foldl (fun n c => n * 10 + (c.toNat - 48)) 0

/-- Match attempt at the head of the input for the segment-url patterns: a
literal, then a maximal nonempty run of a character class, then a literal
terminator.  Because the class never accepts the first terminator character,
the greedy run of the regex engine is forced to the maximal run, so this is
exact for the three patterns used below. -/
def tryPatAt (lit : List Char) (cls : Char → Bool) (term : List Char)
    (s : List Char) : Option (List Char) :=
  if lit.isPrefixOf s then
    let rest := s.drop lit.length
    let run := rest.takeWhile cls
    if run.isEmpty then none
    else if term.isPrefixOf (rest.drop run.length) then some run else none
  else none

/-- Leftmost re.search of a literal-run-terminator pattern, returning the
captured run. -/
def scanPat (lit : List Char) (cls : Char → Bool) (term : List Char) :
    List Char → Option (List Char)
  | [] => none
  | c :: rest =>
    match tryPatAt lit cls term (c :: rest) with
    | some r => some r
    | none => scanPat lit cls term rest

/-- Capture of re.search(r"sources/([a-f0-9]+)/", url) in
combine_webm_segments. -/
def sourceIdOf (u : String) : Option String :=
  (scanPat "sources/".toList isHexLower ['/'] u.toList).map String.mk

/-- Capture of the profiles/(digits)/ search in combine_webm_segments. -/
def profileIdOf (u : String) : Option String :=
  (scanPat "profiles/".toList Char.isDigit ['/'] u.toList).map String.mk

/-- Embedding of extract_segment_number (source lines 468-472): the number of
the leftmost /(digits).webm occurrence, defaulting to 0; re.search on a
non-string raises. -/
def extractSegmentNumberV (url : PyVal) : Except PyErr Nat :=
  match url with
  | .str s =>
    .ok (match scanPat ['/'] Char.isDigit ".webm".toList s.toList with
      | some run => digitsToNat run
      | none => 0)
  | _ => .error .typeError

/-- Embedding of save_embedded_media (source lines 282-306) before its
try/except: extension, filename, and the video/image folder routing.  The
candidate itself is read-only here.  The file write is the external sink. -/
def saveEmbeddedMediaE (collab : Collab) (now : Nat) (c : MediaCandidate) :
    Except PyErr String := do
  let data ← match c.decoded_data with
    | some d => pure d
    | none => throw .keyError
  let ext ← getFileExtension c.content_type data
  let fn ← match c.url with
    | .str u => pyGenerateFilename collab u ext now
    | _ => throw .attributeError
  let isVid ← pyInV "video" c.content_type
  if isVid || ext == ".webm" || ext == ".mp4" then
    return "har_extracted/videos/" ++ fn
  else
    return "har_extracted/images/" ++ fn

/-- Embedding of save_embedded_media with its enclosing try/except: any error
yields None and the candidate is untouched. -/
def saveEmbeddedMedia (collab : Collab) (now : Nat) (c : MediaCandidate) :
    Option String :=
  (saveEmbeddedMediaE collab now c).toOption

/-- Embedding of download_media (source lines 225-280): embedded payloads are
saved directly; otherwise a fetch, the 200-and-plausible-size gate, extension
and filename inference, folder routing, and for webm urls the in-place
enrichment of the candidate with the segment flag, bytes, and role.  The
enclosing try/except turns any raise (including a fetch error and the filename
ValueError) into a None path with the candidate unchanged, which is faithful
because the enrichment happens after the last raising operation. -/
def downloadMedia (collab : Collab) (fetch : String → Option FetchResponse)
    (now : Nat) (c : MediaCandidate) : MediaCandidate × Option String :=
  if c.decoded_data.isSome then (c, saveEmbeddedMedia collab now c)
  else
    match c.url with
    | .str u =>
      match fetch u with
      | none => (c, none)
      | some r =>
        if r.status == 200 && decide (100 < r.body.length) then
          let ct := lowerAscii r.contentType
          match getFileExtension (.str ct) r.body with
          | .error _ => (c, none)
          | .ok ext =>
            match pyGenerateFilename collab u ext now with
            | .error _ => (c, none)
            | .ok filename =>
              if strContains "video" ct || ext == ".webm" || ext == ".mp4"
                  || strContains "video-akpcw.spotifycdn.com" u then
                let c2 :=
                  if strContains "webm" (lowerAscii u) || ext == ".webm" then
                    { c with is_video_segment := true,
                             segment_data := some r.body,
                             segment_type := some (
                               if strContains "inits" u then "init"
                               else if strContains "/0.webm" u || strContains "/1.webm" u
                                   || strContains "/2.webm" u then "media"
                               else "unknown") }
                  else c
                (c2, some ("har_extracted/videos/" ++ filename))
              else
                (c, some ("har_extracted/images/" ++ filename))
        else (c, none)
    | _ => (c, none)

/-- One segment group of combine_webm_segments: the init slot and the
insertion-ordered media list. -/
structure SegGroup where
  init : Option MediaCandidate
  segments : List MediaCandidate

/-- Test for the init role, the comparison at source line 428. -/
def isInitC (c : MediaCandidate) : Bool :=
  c.segment_type == some "init"

/-- Group key of a candidate in combine_webm_segments (source lines 413-423):
none when the candidate is unflagged, not on the fragmented-video host, or
lacks one of the two identifiers; raises when a flagged non-string url
reaches re.search. -/
def keyOfE (c : MediaCandidate) : Except PyErr (Option String) :=
  if !c.is_video_segment then .ok none
  else do
    let onHost ← pyInV "video-akpcw.spotifycdn.com" c.url
    if !onHost then pure none
    else
      match c.url with
      | .str u =>
        pure (match sourceIdOf u, profileIdOf u with
          | some s, some p => some (s ++ "_profile_" ++ p)
          | _, _ => none)
      | _ => throw .typeError

/-- Insertion of a candidate into the insertion-ordered group map (Python
dict of group dicts): a later init overwrites the slot, every other candidate
is appended to the segments list (source lines 425-431). -/
def addCandidate (gs : List (String × SegGroup)) (k : String) (c : MediaCandidate) :
    List (String × SegGroup) :=
  match gs with
  | [] => [(k, if isInitC c then ⟨some c, []⟩ else ⟨none, [c]⟩)]
  | (k2, g) :: rest =>
    if k2 = k then
      (k2, if isInitC c then ⟨some c, g.segments⟩ else ⟨g.init, g.segments ++ [c]⟩) :: rest
    else (k2, g) :: addCandidate rest k c

/-- Grouping pass of combine_webm_segments over the candidate list. -/
def buildGroupsAux (gs : List (String × SegGroup)) :
    List MediaCandidate → Except PyErr (List (String × SegGroup))
  | [] => .ok gs
  | c :: rest =>
    match keyOfE c with
    | .error e => .error e
    | .ok none => buildGroupsAux gs rest
    | .ok (some k) => buildGroupsAux (addCandidate gs k c) rest

/-- Concatenation of the segment payloads in list order; none when a payload
is missing (the KeyError the per-group try turns into a skip). -/
def collectData : List MediaCandidate → Option (List Nat)
  | [] => some []
  | c :: rest =>
    match c.segment_data, collectData rest with
    | some d, some ds => some (d ++ ds)
    | _, _ => none

/-- Pairing of each segment with its sort key (the decoration the Python sort
applies); a raise while computing any key makes the whole group skip. -/
def segKeyed : List MediaCandidate → Option (List (MediaCandidate × Nat))
  | [] => some []
  | c :: rest =>
    match extractSegmentNumberV c.url, segKeyed rest with
    | .ok n, some ps => some ((c, n) :: ps)
    | _, _ => none

/-- Assembly of one group (source lines 435-462): keys are computed for every
segment (a raise skips the group), the segments are sorted stably ascending
by key exactly as the stable Python sort does, and when an init and at least
one media segment are present the bytes are concatenated init-first.  The
write and the optional mp4 conversion act on the returned stream. -/
def assembleGroup (k : String) (g : SegGroup) : Option (String × List Nat) := do
  let keyed ← segKeyed g.segments
  let sortedSegs := (List.insertionSort (fun a b => a.2 ≤ b.2) keyed).map Prod.fst
  let i ← g.init
  if sortedSegs.isEmpty then none
  else do
    let d ← i.segment_data
    let rest ← collectData sortedSegs
    some (k, d ++ rest)

/-- Embedding of combine_webm_segments (source lines 406-466), returning the
assembled streams as group-key and byte-content pairs in group insertion
order. -/
def combineWebmSegments (media : List MediaCandidate) :
    Except PyErr (List (String × List Nat)) := do
  let gs ← buildGroupsAux [] media
  return gs.filterMap (fun kg => assembleGroup kg.1 kg.2)

/-- Aggregated run result of process_har_data / process_har_file: optional
fields model dict keys only some paths set. -/
structure RunResult where
  success : Bool
  error : Option String := none
  total_media_found : Option Nat := none
  downloaded_files : Option (List String) := none
  combined_videos : Option Nat := none
  report_file : Option String := none
  output_folder : Option String := none
  deriving DecidableEq, Repr

/-- Embedding of process_har_data (source lines 499-535): extraction, the
download loop, segment assembly (each stream written and optionally handed to
the transcode collaborator), the found_urls download loop, and the report.
The found_urls set is iterated in insertion order here (Python set order is
arbitrary).  save_analysis_report only serializes already-validated JSON
values, so it is modelled as the returned report path. -/
def processHarData (collab : Collab) (fetch : String → Option FetchResponse)
    (transcode : String → Option String) (now : Nat) (har : PyVal)
    (found0 : List String) : Except PyErr RunResult := do
  let (media, found) ← extractSpotifyImages collab har found0
  let processed := media.map (downloadMedia collab fetch now)
  let downloaded := processed.filterMap Prod.snd
  let combined ← combineWebmSegments (processed.map Prod.fst)
  let combinedPaths := combined.foldr (fun kg acc =>
    let p := "har_extracted/videos/spotify_canvas_" ++ kg.1 ++ ".webm"
    p :: ((transcode p).toList ++ acc)) []
  let extra := found.filter (fun u =>
    !(processed.any (fun pc => pyEqStr pc.1.url u)))
  let extraFiles := extra.filterMap (fun u =>
    (downloadMedia collab fetch now { url := .str u, content_type := .str "image/jpeg" }).2)
  let report := "har_extracted/data/har_analysis_" ++ Nat.repr now ++ ".json"
  return { success := true,
           total_media_found := some media.length,
           downloaded_files := some (downloaded ++ combinedPaths ++ extraFiles),
           combined_videos := some combinedPaths.length,
           report_file := some report,
           output_folder := some "har_extracted" }

/-- Embedding of process_har_file (source lines 396-404). load_har_file
returns the parsed document or None on an I/O or parse error; the guard
`if not har_data` is a Python truthiness test, so both a failed load and a
successfully parsed falsy document (such as the empty mapping) take the
failure-result branch; otherwise the run proceeds on the parsed document. -/
def processHarFile (collab : Collab) (fetch : String → Option FetchResponse)
    (transcode : String → Option String) (now : Nat) (loaded : Option PyVal)
    (found0 : List String) : Except PyErr RunResult :=
  match loaded with
  | none => .ok { success := false, error := some "Failed to load HAR file" }
  | some har =>
    if pyTruthy har then processHarData collab fetch transcode now har found0
    else .ok { success := false, error := some "Failed to load HAR file" }

/-- One response header of a well-formed HAR entry. -/
structure HarHeader where
  name : String
  value : String

/-- Response content descriptor of a well-formed HAR entry. -/
structure HarContent where
  mimeType : String
  text : Option String := none
  encoding : Option String := none

/-- One well-formed HAR entry, the input format of section 6 of the design:
request url and method, response status, headers, content, body size, and
the start timestamp. -/
structure HarEntry where
  url : String
  method : String := "GET"
  status : Int := 200
  headers : List HarHeader := []
  content : HarContent := { mimeType := "" }
  bodySize : Int := 0
  started : String := ""

/-- Dynamic value of a well-formed content descriptor; the mimeType key keeps
the dict truthy. -/
def HarContent.toPyVal (c : HarContent) : PyVal :=
  .dict ([("mimeType", .str c.mimeType)] ++
    (match c.text with | some t => [("text", .str t)] | none => []) ++
    (match c.encoding with | some e => [("encoding", .str e)] | none => []))

/-- Dynamic value of a well-formed HAR entry. -/
def HarEntry.toPyVal (e : HarEntry) : PyVal :=
  .dict [("request", .dict [("url", .str e.url), ("method", .str e.method)]),
         ("response", .dict [("status", .int e.status),
            ("headers", .list (e.headers.map (fun h =>
              .dict [("name", .str h.name), ("value", .str h.value)]))),
            ("content", e.content.toPyVal),
            ("bodySize", .int e.bodySize)]),
         ("startedDateTime", .str e.started)]

/-- Well-formed HAR document around a list of entries. -/
def mkHar (es : List HarEntry) : PyVal :=
  .dict [("log", .dict [("entries", .list (es.map HarEntry.toPyVal))])]

/-! Helper lemmas shared by the claim proofs. -/

theorem exc_ok_bind {α β : Type} (x : α) (f : α → Except PyErr β) :
    (Except.ok x : Except PyErr α) >>= f = f x := rfl

theorem exc_err_bind {α β : Type} (e : PyErr) (f : α → Except PyErr β) :
    (Except.error e : Except PyErr α) >>= f = Except.error e := rfl

theorem exc_pure {α : Type} (x : α) : (pure x : Except PyErr α) = Except.ok x := rfl

/-- Literal input of the free-text scan test of section 8 of the design. -/
def c3Text : String := "ab67616d00112233445566778899aabbccddeeff0011223344"

/-- C3 counterexample: on the literal test input the free-text pattern scan
adds six urls to the empty discovered-url set, not three: the first pattern
(seven-character literal prefix plus 32 hex characters) matches a 39-character
identifier distinct from the 40-character identifier matched by the third
pattern, and each match derives three urls. -/
theorem C3_counterexample : (findImagePatternsInText c3Text []).length ≠ 3 := by
  decide

/-- C3 amended: running find_image_patterns_in_text on the literal input adds
exactly six urls: the direct image url and the two mosaic size variants for
each of the two matched identifiers - the 39-character match of the first
pattern and the 40-character match of the third pattern. -/
theorem C3_pattern_scan_six_urls : findImagePatternsInText c3Text [] =
    ["https://i.scdn.co/image/ab67616d00112233445566778899aabbccddeef",
     "https://mosaic.scdn.co/640/ab67616d00112233445566778899aabbccddeef",
     "https://mosaic.scdn.co/300/ab67616d00112233445566778899aabbccddeef",
     "https://i.scdn.co/image/ab67616d00112233445566778899aabbccddeeff",
     "https://mosaic.scdn.co/640/ab67616d00112233445566778899aabbccddeeff",
     "https://mosaic.scdn.co/300/ab67616d00112233445566778899aabbccddeeff"] := by
  rfl

/-- C4 counterexample: a content-type string containing png but also jpeg,
over bytes beginning with the JPEG SOI signature, resolves to .jpg, because
the jpeg table entry is tested before the png one; so the claim as stated
(any content type containing png resolves to png) fails. -/
theorem C4_counterexample :
    getFileExtension (.str "image/jpeg; png") [255, 216, 255] = .ok ".jpg" ∧
    ".jpg" ≠ ".png" := by
  exact ⟨by rfl, by decide⟩

/-- C4 amended: for any content-type header string containing png and
containing neither jpeg nor jpg, the resolved kind is png for arbitrary
bytes - in particular the declared header wins over JPEG magic-byte
sniffing, which is never consulted. -/
theorem C4_header_precedence (ct : String) (data : List Nat)
    (h1 : strContains "png" ct = true) (h2 : strContains "jpeg" ct = false)
    (h3 : strContains "jpg" ct = false) :
    getFileExtension (.str ct) data = .ok ".png" := by
  simp [getFileExtension, extFromContentType, contentTypeTable, pyInV, h1, h2, h3,
    exc_ok_bind, exc_pure]

/-- C4 witness: the image/png header over JPEG-signature bytes resolves to
png. -/
theorem C4_header_precedence_witness :
    strContains "png" "image/png" = true ∧ strContains "jpeg" "image/png" = false ∧
    strContains "jpg" "image/png" = false ∧
    getFileExtension (.str "image/png") [255, 216, 255] = .ok ".png" :=
  ⟨by decide, by decide, by decide,
   C4_header_precedence "image/png" [255, 216, 255] (by decide) (by decide) (by decide)⟩

/-- Pathologically nested input for the depth-bound question: n wrapper dict
layers under a non-curated key around one curated image reference. -/
def deepNest : Nat → PyVal
  | 0 => .dict [("image", .str "https://i.scdn.co/image/deep")]
  | n + 1 => .dict [("wrap", deepNest n)]

/-- Modelled from the spec: the depth-bounded structured scan the design
requires (a fixed defensive recursion limit, with 64 as the named example);
nodes below the bound are not visited.  The program itself contains no such
bound; this definition exists only for comparison. -/
def findImagesInJsonBounded : Nat → PyVal → List String → List String
  | 0, _, found => found
  | fuel + 1, v, found =>
    match v with
    | .dict kvs => kvs.foldl (fun fnd kv =>
        if kv.1 ∈ imageKeys then
          match kv.2 with
          | .str s => if isSpotifyImageUrlS s then addUrl fnd s else fnd
          | _ => fnd
        else
          match kv.2 with
          | .dict _ => findImagesInJsonBounded fuel kv.2 fnd
          | .list _ => findImagesInJsonBounded fuel kv.2 fnd
          | _ => fnd) found
    | .list xs => xs.foldl (fun fnd x => findImagesInJsonBounded fuel x fnd) found
    | _ => found

theorem deepNest_isDict (n : Nat) : ∃ kvs, deepNest n = .dict kvs := by
  cases n <;> exact ⟨_, rfl⟩

theorem findImages_deepNest (n : Nat) (found : List String) :
    findImagesInJson (deepNest n) found = addUrl found "https://i.scdn.co/image/deep" := by
  induction n generalizing found with
  | zero =>
    simp [deepNest, findImagesInJson, findImagesKvs, imageKeys,
      show isSpotifyImageUrlS "https://i.scdn.co/image/deep" = true from by decide]
  | succ n ih =>
    obtain ⟨kvs, hk⟩ := deepNest_isDict n
    calc findImagesInJson (deepNest (n + 1)) found
        = findImagesInJson (PyVal.dict [("wrap", deepNest n)]) found := rfl
      _ = findImagesInJson (deepNest n) found := by
            rw [hk]; simp [findImagesInJson, findImagesKvs, imageKeys]
      _ = addUrl found "https://i.scdn.co/image/deep" := ih found

/-- C9 counterexample: the structured scan of the program reaches and
collects a url buried 65 dict layers deep, while the depth-64-bounded scan
the claim describes cannot; so the recursion is not bounded by the claimed
defensive limit. -/
theorem C9_counterexample :
    findImagesInJson (deepNest 65) [] = ["https://i.scdn.co/image/deep"] ∧
    findImagesInJsonBounded 64 (deepNest 65) [] = [] :=
  ⟨by decide, by decide⟩

/-- C9 amended: find_images_in_json has no defensive depth limit: for every
nesting depth n it visits the node at depth n and collects the url stored
there (the Python implementation is plain structural recursion, bounded only
by the interpreter recursion limit; on finite acyclic input it terminates,
as its total embedding here shows). -/
theorem C9_unbounded_recursion (n : Nat) :
    findImagesInJson (deepNest n) [] = ["https://i.scdn.co/image/deep"] := by
  rw [findImages_deepNest]; rfl

theorem anyKey_eq_isSome (kvs : List (String × PyVal)) (key : String) :
    (kvs.any (fun kv => kv.1 == key)) = (lookupOpt kvs key).isSome := by
  induction kvs with
  | nil => rfl
  | cons kv rest ih =>
    obtain ⟨k, v⟩ := kv
    by_cases h : k = key
    · simp [lookupOpt, h]
    · simp [lookupOpt, h, ih]

/-- Early-return of extract_spotify_images on a mapping document that lacks
the log key, or whose log value is a mapping lacking the entries key. -/
theorem extract_malformed (collab : Collab) (kvs : List (String × PyVal)) (found : List String)
    (h : lookupOpt kvs "log" = none ∨
      ∃ lkvs, lookupOpt kvs "log" = some (.dict lkvs) ∧ lookupOpt lkvs "entries" = none) :
    extractSpotifyImages collab (.dict kvs) found = .ok ([], found) := by
  rcases h with h | ⟨lkvs, h1, h2⟩
  · simp [extractSpotifyImages, pyInV, anyKey_eq_isSome, h, exc_ok_bind, exc_pure]
  · simp [extractSpotifyImages, pyInV, pySubscript, anyKey_eq_isSome, h1, h2, exc_ok_bind,
      exc_pure]

/-- Run result of a pipeline pass that found nothing. -/
def emptyRun (now : Nat) : RunResult :=
  { success := true, total_media_found := some 0, downloaded_files := some [],
    combined_videos := some 0,
    report_file := some ("har_extracted/data/har_analysis_" ++ Nat.repr now ++ ".json"),
    output_folder := some "har_extracted" }

theorem phd_of_extract_empty (collab : Collab) (fetch : String → Option FetchResponse)
    (transcode : String → Option String) (now : Nat) (har : PyVal)
    (h : extractSpotifyImages collab har [] = .ok ([], [])) :
    processHarData collab fetch transcode now har [] = .ok (emptyRun now) := by
  simp [processHarData, h, exc_ok_bind, combineWebmSegments, buildGroupsAux,
    exc_pure, emptyRun]

/-- C5 counterexample: the parsed document with a numeric log value lacks the
log.entries path, yet the run raises an uncaught TypeError (the membership
test of the format check is applied to a non-container), rather than
returning a non-failure result. -/
theorem C5_counterexample :
    processHarData collab0 (fun _ => none) (fun _ => none) 0
      (.dict [("log", .int 5)]) [] = .error .typeError := by
  rfl

/-- C5 amended: for a parsed mapping document that lacks the log key, or
whose log value is a mapping lacking the entries key, process_har_data
returns a non-failure result (success true) with zero media candidates and
raises no exception; when the log value is a non-container such as a number,
the format check itself raises an uncaught TypeError. -/
theorem C5_malformed_nonfatal (collab : Collab) (fetch : String → Option FetchResponse)
    (transcode : String → Option String) (now : Nat) (kvs : List (String × PyVal))
    (h : lookupOpt kvs "log" = none ∨
      ∃ lkvs, lookupOpt kvs "log" = some (.dict lkvs) ∧ lookupOpt lkvs "entries" = none) :
    processHarData collab fetch transcode now (.dict kvs) [] = .ok (emptyRun now) :=
  phd_of_extract_empty collab fetch transcode now (.dict kvs)
    (extract_malformed collab kvs [] h)

/-- C5 witness: the empty document runs to the empty success result. -/
theorem C5_malformed_nonfatal_witness :
    (lookupOpt ([] : List (String × PyVal)) "log" = none) ∧
    processHarData collab0 (fun _ => none) (fun _ => none) 0 (.dict []) [] =
      .ok (emptyRun 0) :=
  ⟨rfl, C5_malformed_nonfatal collab0 (fun _ => none) (fun _ => none) 0 [] (Or.inl rfl)⟩

/-- Every ok result of process_har_data carries success true: its single
return statement builds the record with success True, so no failure-shaped
result can come out of it. -/
theorem phd_success (collab : Collab) (fetch : String → Option FetchResponse)
    (transcode : String → Option String) (now : Nat) (har : PyVal)
    (found0 : List String) (r : RunResult)
    (h : processHarData collab fetch transcode now har found0 = .ok r) :
    r.success = true := by
  unfold processHarData at h
  simp only [Bind.bind, Except.bind, Pure.pure, Except.pure] at h
  repeat' split at h
  all_goals
    first
    | exact Except.noConfusion h
    | (injection h with h; subst h; rfl)

/-- C6 counterexample: the truthy parsed document whose log mapping lacks
the entries key is missing the required log.entries path, yet the pipeline
(process_har_file on the successfully loaded document) returns success true,
not the failure result (success false) the claim requires. -/
theorem C6_counterexample :
    (processHarFile collab0 (fun _ => none) (fun _ => none) 0
      (some (.dict [("log", .dict [("version", .str "1.2")])])) [] = .ok (emptyRun 0)) ∧
    (emptyRun 0).success = true ∧ (emptyRun 0).success ≠ false :=
  ⟨by rfl, by rfl, by decide⟩

/-- C6 amended: a truthy parsed mapping document missing the log.entries
path is not fatal - process_har_file runs it to a success-true result with
zero candidates; and every failure-shaped (success false) ok result of the
pipeline arises from the truthiness guard of process_har_file, on a document
that failed to load or whose parsed value is falsy (such as the empty
mapping), never from process_har_data. -/
theorem C6_malformed_not_failure (collab : Collab) (fetch : String → Option FetchResponse)
    (transcode : String → Option String) (now : Nat) (kvs : List (String × PyVal))
    (h : kvs ≠ [] ∧ (lookupOpt kvs "log" = none ∨
      ∃ lkvs, lookupOpt kvs "log" = some (.dict lkvs) ∧ lookupOpt lkvs "entries" = none)) :
    (∃ r, processHarFile collab fetch transcode now (some (.dict kvs)) [] = .ok r ∧
      r.success = true) ∧
    (∀ (loaded : Option PyVal) (found0 : List String) (r : RunResult),
      processHarFile collab fetch transcode now loaded found0 = .ok r →
      r.success = false →
      loaded = none ∨ ∃ v, loaded = some v ∧ pyTruthy v = false) := by
  constructor
  · refine ⟨emptyRun now, ?_, rfl⟩
    have htr : pyTruthy (.dict kvs) = true := by
      cases kvs with
      | nil => exact absurd rfl h.1
      | cons a l => rfl
    simp only [processHarFile]
    rw [if_pos htr]
    exact phd_of_extract_empty collab fetch transcode now (.dict kvs)
      (extract_malformed collab kvs [] h.2)
  · intro loaded found0 r hr hs
    cases loaded with
    | none => exact Or.inl rfl
    | some v =>
      by_cases htv : pyTruthy v = true
      · exfalso
        simp only [processHarFile] at hr
        rw [if_pos htv] at hr
        have hsucc := phd_success collab fetch transcode now v found0 r hr
        rw [hsucc] at hs
        exact Bool.noConfusion hs
      · exact Or.inr ⟨v, rfl, by simpa using htv⟩

/-- C6 witness: a truthy document whose log is a mapping without entries. -/
theorem C6_malformed_not_failure_witness :
    (([("log", PyVal.dict [("version", PyVal.str "1.2")])] : List (String × PyVal)) ≠ [] ∧
      (lookupOpt [("log", PyVal.dict [("version", PyVal.str "1.2")])] "log" = none ∨
        ∃ lkvs, lookupOpt [("log", PyVal.dict [("version", PyVal.str "1.2")])] "log" =
          some (.dict lkvs) ∧ lookupOpt lkvs "entries" = none)) ∧
    ((∃ r, processHarFile collab0 (fun _ => none) (fun _ => none) 0
        (some (.dict [("log", .dict [("version", .str "1.2")])])) [] = .ok r ∧
        r.success = true) ∧
      (∀ (loaded : Option PyVal) (found0 : List String) (r : RunResult),
        processHarFile collab0 (fun _ => none) (fun _ => none) 0 loaded found0 = .ok r →
        r.success = false →
        loaded = none ∨ ∃ v, loaded = some v ∧ pyTruthy v = false)) :=
  ⟨⟨List.cons_ne_nil _ _, Or.inr ⟨_, rfl, rfl⟩⟩,
    C6_malformed_not_failure collab0 (fun _ => none) (fun _ => none) 0
      [("log", .dict [("version", .str "1.2")])]
      ⟨List.cons_ne_nil _ _, Or.inr ⟨_, rfl, rfl⟩⟩⟩

/-- Character set the claim allows in filenames: A-Za-z0-9_.- (Char.isAlpha
and Char.isDigit are exactly the ASCII letter and digit tests). -/
def filenameSafeChar (c : Char) : Bool :=
  c.isAlpha || c.isDigit || c == '_' || c == '.' || c == '-'

theorem digitChar_ascii (m : Nat) : (Nat.digitChar m).toNat < 128 := by
  by_cases h : m < 16
  · have : m = 0 ∨ m = 1 ∨ m = 2 ∨ m = 3 ∨ m = 4 ∨ m = 5 ∨ m = 6 ∨ m = 7 ∨ m = 8 ∨
        m = 9 ∨ m = 10 ∨ m = 11 ∨ m = 12 ∨ m = 13 ∨ m = 14 ∨ m = 15 := by omega
    rcases this with rfl | rfl | rfl | rfl | rfl | rfl | rfl | rfl | rfl | rfl | rfl | rfl |
      rfl | rfl | rfl | rfl <;> decide
  · have h0 : ¬ (m = 0) := by omega
    have h1 : ¬ (m = 1) := by omega
    have h2 : ¬ (m = 2) := by omega
    have h3 : ¬ (m = 3) := by omega
    have h4 : ¬ (m = 4) := by omega
    have h5 : ¬ (m = 5) := by omega
    have h6 : ¬ (m = 6) := by omega
    have h7 : ¬ (m = 7) := by omega
    have h8 : ¬ (m = 8) := by omega
    have h9 : ¬ (m = 9) := by omega
    have ha : ¬ (m = 10) := by omega
    have hb : ¬ (m = 11) := by omega
    have hc : ¬ (m = 12) := by omega
    have hd : ¬ (m = 13) := by omega
    have he : ¬ (m = 14) := by omega
    have hf : ¬ (m = 15) := by omega
    have e : Nat.digitChar m = '*' := by
      unfold Nat.digitChar
      rw [if_neg h0, if_neg h1, if_neg h2, if_neg h3, if_neg h4, if_neg h5, if_neg h6,
          if_neg h7, if_neg h8, if_neg h9, if_neg ha, if_neg hb, if_neg hc, if_neg hd,
          if_neg he, if_neg hf]
    rw [e]; decide

theorem toDigitsCore_ascii (b fuel : Nat) :
    ∀ (n : Nat) (ds : List Char), (∀ c ∈ ds, c.toNat < 128) →
    ∀ c ∈ Nat.toDigitsCore b fuel n ds, c.toNat < 128 := by
  induction fuel with
  | zero => intro n ds hds; simpa [Nat.toDigitsCore] using hds
  | succ fuel ih =>
    intro n ds hds
    have hcons : ∀ c ∈ Nat.digitChar (n % b) :: ds, c.toNat < 128 := by
      intro c hc
      rcases List.mem_cons.mp hc with h | h
      · subst h; exact digitChar_ascii _
      · exact hds c h
    simp only [Nat.toDigitsCore]
    split
    · exact hcons
    · exact ih _ _ hcons

theorem natRepr_ascii (n : Nat) : ∀ c ∈ (Nat.repr n).toList, c.toNat < 128 := by
  have : (Nat.repr n).toList = Nat.toDigits 10 n := rfl
  rw [this]
  exact toDigitsCore_ascii 10 (n + 1) n [] (by simp)

theorem splitChar_ne_nil (sep : Char) (l : List Char) : splitChar sep l ≠ [] := by
  cases l with
  | nil => simp [splitChar]
  | cons c rest =>
    simp only [splitChar]
    split
    · simp
    · split <;> simp

theorem splitChar_subset (sep : Char) (l : List Char) :
    ∀ piece ∈ splitChar sep l, ∀ c ∈ piece, c ∈ l := by
  induction l with
  | nil =>
    intro piece hp c hc
    simp [splitChar] at hp
    subst hp
    simp at hc
  | cons c0 rest ih =>
    intro piece hp c hc
    simp only [splitChar] at hp
    by_cases hsep : c0 = sep
    · rw [if_pos hsep] at hp
      rcases List.mem_cons.mp hp with h | h
      · subst h; simp at hc
      · exact List.mem_cons_of_mem _ (ih piece h c hc)
    · rw [if_neg hsep] at hp
      rcases hr : splitChar sep rest with _ | ⟨p, more⟩
      · exact absurd hr (splitChar_ne_nil sep rest)
      · rw [hr] at hp
        rcases List.mem_cons.mp hp with h | h
        · subst h
          rcases List.mem_cons.mp hc with h2 | h2
          · exact h2 ▸ List.mem_cons_self _ _
          · exact List.mem_cons_of_mem _ (ih p (hr ▸ List.mem_cons_self _ _) c h2)
        · exact List.mem_cons_of_mem _ (ih piece (hr ▸ List.mem_cons_of_mem _ h) c hc)

theorem urlPreprocessed_subset (url : String) :
    ∀ x ∈ urlPreprocessed url, x ∈ url.toList := by
  intro x hx
  exact (List.dropWhile_sublist _).subset (List.filter_subset' _ hx)

theorem urlAfterScheme_subset (cs : List Char) : ∀ x ∈ urlAfterScheme cs, x ∈ cs := by
  intro x hx
  unfold urlAfterScheme at hx
  rcases hf : cs.findIdx? (fun c => c == ':') with _ | i <;> simp only [hf] at hx
  · exact hx
  · by_cases h : ((0 < i : Bool) && (match cs.head? with
        | some c0 => decide (c0.toNat < 128) && c0.isAlpha
        | none => false) && (cs.take i).all schemeChar) = true
    · rw [if_pos h] at hx
      exact List.drop_subset _ _ hx
    · rw [if_neg h] at hx
      exact hx

theorem urlNetlocRest_snd_subset (cs : List Char) :
    ∀ x ∈ (urlNetlocRest cs).2, x ∈ cs := by
  intro x hx
  unfold urlNetlocRest at hx
  by_cases h : (['/', '/'].isPrefixOf cs) = true
  · rw [if_pos h] at hx
    exact List.drop_subset _ _ (List.drop_subset _ _ hx)
  · rw [if_neg h] at hx
    exact hx

theorem urlPathOf_subset (url : String) : ∀ c ∈ urlPathOf url, c ∈ url.toList := by
  intro c hc
  have hbase : ∀ x ∈ (urlNetlocRest (urlAfterScheme (urlPreprocessed url))).2,
      x ∈ url.toList := fun x hx =>
    urlPreprocessed_subset url x (urlAfterScheme_subset _ x (urlNetlocRest_snd_subset _ x hx))
  unfold urlPathOf at hc
  set rest := (urlNetlocRest (urlAfterScheme (urlPreprocessed url))).2 with hrest
  have h2 : ∀ x ∈ (if rest.contains '#' then rest.takeWhile (fun c => !(c == '#')) else rest),
      x ∈ url.toList := by
    intro x hx
    by_cases h : rest.contains '#' = true
    · rw [if_pos h] at hx
      exact hbase x ((List.takeWhile_sublist _).subset hx)
    · rw [if_neg h] at hx
      exact hbase x hx
  set rest2 := (if rest.contains '#' then rest.takeWhile (fun c => !(c == '#')) else rest)
    with hrest2
  have h3 : ∀ x ∈ (if rest2.contains '?' then rest2.takeWhile (fun c => !(c == '?')) else rest2),
      x ∈ url.toList := by
    intro x hx
    by_cases h : rest2.contains '?' = true
    · rw [if_pos h] at hx
      exact h2 x ((List.takeWhile_sublist _).subset hx)
    · rw [if_neg h] at hx
      exact h2 x hx
  set path0 := (if rest2.contains '?' then rest2.takeWhile (fun c => !(c == '?')) else rest2)
    with hpath0
  by_cases hsemi : path0.contains ';' = true
  · rw [if_pos hsemi] at hc
    by_cases hslash : path0.contains '/' = true
    · rw [if_pos hslash] at hc
      rcases hfi : (path0.drop (path0.length - 1 -
          findIdxOrLen (fun c => c == '/') path0.reverse)).findIdx? (fun c => c == ';')
        with _ | k <;> simp only [hfi] at hc
      · exact h3 c hc
      · exact h3 c (List.take_subset _ _ hc)
    · rw [if_neg hslash] at hc
      exact h3 c (List.take_subset _ _ hc)
  · rw [if_neg hsemi] at hc
    exact h3 c hc

theorem pyUrlparsePath_ok (collab : Collab) (url : String) (p : String)
    (h : pyUrlparsePath collab url = .ok p) : p = String.mk (urlPathOf url) := by
  simp only [pyUrlparsePath] at h
  split at h
  · exact absurd h (by simp)
  · split at h
    · exact absurd h (by simp)
    · split at h
      · exact absurd h (by simp)
      · simp only [Except.ok.injEq] at h
        exact h.symm

theorem extFromContentType_mem (ct : PyVal) (table : List (String × String)) (r : String)
    (h : extFromContentType ct table = .ok (some r)) : r ∈ table.map Prod.snd := by
  induction table with
  | nil => exact absurd h (by simp [extFromContentType])
  | cons kv rest ih =>
    obtain ⟨needle, e⟩ := kv
    unfold extFromContentType at h
    rcases hp : pyInV needle ct with err | b <;> rw [hp] at h
    · exact absurd h (by simp [exc_err_bind])
    · rw [exc_ok_bind] at h
      cases b
      · simpa using Or.inr (ih (by simpa using h))
      · simp only [if_true] at h
        injection h with h2
        injection h2 with h3
        simp [h3]

theorem sniffExtension_mem (data : List Nat) :
    sniffExtension data ∈ [".jpg", ".png", ".gif", ".webp", ".webm", ".mp4", ".bin"] := by
  unfold sniffExtension
  repeat' split
  all_goals decide

theorem getFileExtension_mem (ct : PyVal) (data : List Nat) (ext : String)
    (h : getFileExtension ct data = .ok ext) :
    ext ∈ [".jpg", ".png", ".gif", ".webp", ".webm", ".mp4", ".bin"] := by
  unfold getFileExtension at h
  rcases he : extFromContentType ct contentTypeTable with err | o <;> rw [he] at h
  · exact absurd h (by simp [exc_err_bind])
  · rw [exc_ok_bind] at h
    rcases o with _ | r
    · simp only [exc_pure, Except.ok.injEq] at h
      subst h
      exact sniffExtension_mem data
    · simp only [exc_pure, Except.ok.injEq] at h
      subst h
      have := extFromContentType_mem ct contentTypeTable r he
      simp only [contentTypeTable, List.map_cons, List.map_nil, List.mem_cons,
        List.not_mem_nil, or_false] at this
      rcases this with h | h | h | h | h | h | h
      all_goals subst h
      all_goals decide

theorem buildFilename_safe (collab : Collab) (path ext : String) (now : Nat)
    (hpath : ∀ c ∈ path.toList, c.toNat < 128)
    (hext : ext ∈ [".jpg", ".png", ".gif", ".webp", ".webm", ".mp4", ".bin"]) :
    buildFilename collab path ext now ≠ "" ∧
    ∀ c ∈ (buildFilename collab path ext now).toList, filenameSafeChar c = true := by
  have hextc : (∀ c ∈ ext.toList, filenameSafeChar c = true) ∧ ext.toList ≠ [] := by
    simp only [List.mem_cons, List.not_mem_nil, or_false] at hext
    rcases hext with h | h | h | h | h | h | h
    all_goals subst h
    all_goals exact ⟨by decide, by decide⟩
  unfold buildFilename
  set stripped := ((path.toList.dropWhile (fun c => c == '/')).reverse.dropWhile
      (fun c => c == '/')).reverse with hstr
  have hstripped : ∀ c ∈ stripped, c.toNat < 128 := by
    intro c hc
    rw [hstr] at hc
    rw [List.mem_reverse] at hc
    have := (List.dropWhile_sublist _).subset hc
    rw [List.mem_reverse] at this
    exact hpath c ((List.dropWhile_sublist _).subset this)
  set lastPart := (splitChar '/' stripped).getLastD [] with hlast
  have hlastSub : ∀ c ∈ lastPart, c.toNat < 128 := by
    intro c hc
    rw [hlast] at hc
    have hmem : (splitChar '/' stripped).getLastD [] ∈ splitChar '/' stripped := by
      rcases hsp : splitChar '/' stripped with _ | ⟨p, more⟩
      · exact absurd hsp (splitChar_ne_nil _ _)
      · rw [List.getLastD_cons]
        exact List.getLastD_mem_cons _ _
    exact hstripped c (splitChar_subset '/' stripped _ hmem c hc)
  set base := (if !lastPart.isEmpty then
      if lastPart.contains '.' then
        lastPart.take (lastPart.length - 1 - findIdxOrLen (fun c => c == '.') lastPart.reverse)
      else lastPart
    else ("spotify_media_" ++ Nat.repr now).toList) with hbase
  have hbaseAscii : ∀ c ∈ base, c.toNat < 128 := by
    intro c hc
    rw [hbase] at hc
    by_cases h1 : (!lastPart.isEmpty) = true
    · rw [if_pos h1] at hc
      by_cases h2 : (lastPart.contains '.') = true
      · rw [if_pos h2] at hc
        exact hlastSub c (List.take_subset _ _ hc)
      · rw [if_neg h2] at hc
        exact hlastSub c hc
    · rw [if_neg h1] at hc
      rw [show ("spotify_media_" ++ Nat.repr now).toList
          = "spotify_media_".toList ++ (Nat.repr now).toList from rfl] at hc
      rcases List.mem_append.mp hc with h | h
      · exact (by decide : ∀ x ∈ "spotify_media_".toList, x.toNat < 128) c h
      · exact natRepr_ascii now c h
  constructor
  · intro hempty
    have : (base.map (fun c =>
        if pyWordChar collab c || c == '-' || c == '_' || c == '.' then c else '_')
        ++ ext.toList) = [] := congrArg String.toList hempty
    rcases List.append_eq_nil.mp this with ⟨_, h2⟩
    exact hextc.2 h2
  · intro c hc
    rw [show (String.mk (base.map (fun c =>
        if pyWordChar collab c || c == '-' || c == '_' || c == '.' then c else '_')
        ++ ext.toList)).toList = base.map (fun c =>
        if pyWordChar collab c || c == '-' || c == '_' || c == '.' then c else '_')
        ++ ext.toList from rfl] at hc
    rcases List.mem_append.mp hc with h | h
    · rcases List.mem_map.mp h with ⟨c0, hc0, hmap⟩
      subst hmap
      by_cases hk : (pyWordChar collab c0 || c0 == '-' || c0 == '_' || c0 == '.') = true
      · rw [if_pos hk]
        have hascii := hbaseAscii c0 hc0
        unfold pyWordChar at hk
        rw [if_pos (by simpa using hascii)] at hk
        unfold filenameSafeChar
        rcases Bool.or_eq_true_iff.mp hk with h | h
        · rcases Bool.or_eq_true_iff.mp h with h | h
          · rcases Bool.or_eq_true_iff.mp h with h | h
            · simp [h]
            · simp [h]
          · simp [h]
        · simp [h]
      · rw [if_neg hk]
        decide
    · exact hextc.1 c h
/-- C8 amended: for every ASCII input url on which urlparse succeeds, and
every extension the program can infer, the generated filename is nonempty and
contains only characters from the claimed safe set; for non-ASCII urls the
Unicode-aware word class of the sanitizer lets non-ASCII word characters
through, and urls with a mismatched bracket in the authority raise ValueError
instead of producing a filename. -/
theorem C8_sanitization (collab : Collab) (url : String) (ct : PyVal) (data : List Nat)
    (ext f : String) (now : Nat)
    (hascii : ∀ c ∈ url.toList, c.toNat < 128)
    (hext : getFileExtension ct data = .ok ext)
    (hf : pyGenerateFilename collab url ext now = .ok f) :
    f ≠ "" ∧ ∀ c ∈ f.toList, filenameSafeChar c = true := by
  unfold pyGenerateFilename at hf
  rcases hp : pyUrlparsePath collab url with e | p <;> rw [hp] at hf
  · exact absurd hf (by simp [exc_err_bind])
  · rw [exc_ok_bind] at hf
    simp only [exc_pure, Except.ok.injEq] at hf
    subst hf
    have hpe := pyUrlparsePath_ok collab url p hp
    subst hpe
    exact buildFilename_safe collab _ ext now
      (fun c hc => hascii c (urlPathOf_subset url c hc))
      (getFileExtension_mem ct data ext hext)

/-- C8 counterexample: the regex word class of the sanitizer is
Unicode-aware, so a url whose last path segment contains the letter U+00E9
produces a filename containing that letter, which is outside the claimed
character set A-Za-z0-9_.- (the collaborator instantiation records, per the
Python Unicode tables, that U+00E9 is alphanumeric). -/
theorem C8_counterexample :
    pyGenerateFilename collab0 "https://i.scdn.co/image/xé" ".jpg" 0 = .ok "xé.jpg" ∧
    ("xé.jpg".toList.all filenameSafeChar) = false :=
  ⟨by rfl, by decide⟩

/-- C8 witness: a concrete ASCII url with the jpeg extension inferred by the
program yields the nonempty safe filename ab1.jpg. -/
theorem C8_sanitization_witness :
    (∀ c ∈ ("https://i.scdn.co/image/ab1").toList, c.toNat < 128) ∧
    getFileExtension (.str "image/jpeg") [] = .ok ".jpg" ∧
    pyGenerateFilename collab0 "https://i.scdn.co/image/ab1" ".jpg" 0 = .ok "ab1.jpg" ∧
    ("ab1.jpg" ≠ "" ∧ ∀ c ∈ ("ab1.jpg").toList, filenameSafeChar c = true) :=
  ⟨by decide, by rfl, by rfl,
   C8_sanitization collab0 "https://i.scdn.co/image/ab1" (.str "image/jpeg") [] ".jpg"
     "ab1.jpg" 0 (by decide) (by rfl) (by rfl)⟩

theorem or_some_getD {α : Type} (o : Option α) (a : α) : o.or (some a) = some (o.getD a) := by
  cases o <;> rfl

theorem sorted_strict_of_sorted_nodup {α : Type} (key : α → Nat) (l : List α)
    (hs : l.Sorted (fun a b => key a ≤ key b)) (hd : (l.map key).Nodup) :
    l.Sorted (fun a b => key a < key b) := by
  have hne : l.Pairwise (fun a b => key a ≠ key b) := (List.pairwise_map.mp hd)
  exact (hs.and hne).imp (fun h => Nat.lt_of_le_of_ne h.1 h.2)

theorem insertionSort_eq_of_perm {α : Type} (key : α → Nat) (l m : List α)
    (hp : l.Perm m)
    (hm : m.Sorted (fun a b => key a ≤ key b))
    (hd : (m.map key).Nodup) :
    List.insertionSort (fun a b => key a ≤ key b) l = m := by
  haveI : IsTotal α (fun a b => key a ≤ key b) := ⟨fun a b => Nat.le_total _ _⟩
  haveI : IsTrans α (fun a b => key a ≤ key b) := ⟨fun a b c h1 h2 => Nat.le_trans h1 h2⟩
  haveI : IsAntisymm α (fun a b => key a < key b) :=
    ⟨fun a b h1 h2 => absurd h2 (Nat.lt_asymm h1)⟩
  have hperm : (List.insertionSort (fun a b => key a ≤ key b) l).Perm m :=
    (List.perm_insertionSort _ l).trans hp
  have hdl : ((List.insertionSort (fun a b => key a ≤ key b) l).map key).Nodup :=
    ((hperm.map key).nodup_iff).mpr hd
  exact List.eq_of_perm_of_sorted hperm
    (sorted_strict_of_sorted_nodup key _ (List.sorted_insertionSort _ l) hdl)
    (sorted_strict_of_sorted_nodup key m hm hd)

theorem insertionSortPairs_eq {α : Type} (l m : List (α × Nat))
    (hp : l.Perm m) (hm : m.Sorted (fun a b => a.2 ≤ b.2))
    (hd : (m.map Prod.snd).Nodup) :
    List.insertionSort (fun a b => a.2 ≤ b.2) l = m :=
  insertionSort_eq_of_perm Prod.snd l m hp hm hd

theorem buildGroupsAux_single (k : String) (l : List MediaCandidate) :
    ∀ (g : SegGroup), (∀ c ∈ l, keyOfE c = .ok (some k)) →
    buildGroupsAux [(k, g)] l =
      .ok [(k, ⟨((l.filter isInitC).getLast?).or g.init,
                g.segments ++ l.filter (fun c => !isInitC c)⟩)] := by
  induction l with
  | nil => intro g h; simp [buildGroupsAux]
  | cons c rest ih =>
    intro g h
    have hc := h c (List.mem_cons_self c rest)
    unfold buildGroupsAux
    simp only [hc]
    have haddc : addCandidate [(k, g)] k c =
        [(k, if isInitC c then ⟨some c, g.segments⟩ else ⟨g.init, g.segments ++ [c]⟩)] := by
      simp [addCandidate]
    rw [haddc]
    by_cases hi : isInitC c = true
    · rw [if_pos hi, ih _ (fun x hx => h x (List.mem_cons_of_mem _ hx))]
      simp only [List.filter_cons, hi, if_pos]
      rw [List.getLast?_cons, or_some_getD]
      have : (!isInitC c) = false := by rw [hi]; rfl
      simp [this]
    · rw [if_neg hi, ih _ (fun x hx => h x (List.mem_cons_of_mem _ hx))]
      have hb : isInitC c = false := Bool.eq_false_iff.mpr hi
      simp only [List.filter_cons, hb]
      have : (!isInitC c) = true := by rw [hb]; rfl
      simp [this]

theorem buildGroupsAux_single_start (k : String) (c0 : MediaCandidate)
    (rest : List MediaCandidate)
    (h : ∀ c ∈ c0 :: rest, keyOfE c = .ok (some k)) :
    buildGroupsAux [] (c0 :: rest) =
      .ok [(k, ⟨((c0 :: rest).filter isInitC).getLast?,
                (c0 :: rest).filter (fun c => !isInitC c)⟩)] := by
  have hc := h c0 (List.mem_cons_self c0 rest)
  unfold buildGroupsAux
  simp only [hc]
  show buildGroupsAux (addCandidate [] k c0) rest = _
  rw [show addCandidate [] k c0 =
      [(k, if isInitC c0 then ⟨some c0, []⟩ else ⟨none, [c0]⟩)] from rfl]
  by_cases hi : isInitC c0 = true
  · rw [if_pos hi, buildGroupsAux_single k rest _ (fun x hx => h x (List.mem_cons_of_mem _ hx))]
    simp only [List.filter_cons, hi, if_pos]
    rw [List.getLast?_cons, or_some_getD]
    have : (!isInitC c0) = false := by rw [hi]; rfl
    simp [this]
  · rw [if_neg hi, buildGroupsAux_single k rest _ (fun x hx => h x (List.mem_cons_of_mem _ hx))]
    have hb : isInitC c0 = false := Bool.eq_false_iff.mpr hi
    simp only [List.filter_cons, hb]
    have : (!isInitC c0) = true := by rw [hb]; rfl
    simp [this]

/-- Concrete init-segment url on the fragmented-video host, with source id
abc0 and profile id 10. -/
def segInitUrl : String :=
  "https://video-akpcw.spotifycdn.com/sources/abc0/profiles/10/inits/0.webm"

/-- Concrete media-segment url of the same group with the given trailing
numeric token. -/
def segMediaUrl (n : String) : String :=
  "https://video-akpcw.spotifycdn.com/sources/abc0/profiles/10/" ++ n ++ ".webm"

/-- Downloaded init candidate of the concrete group carrying the given
bytes. -/
def mkInitCand (b : List Nat) : MediaCandidate :=
  { url := .str segInitUrl, is_video_segment := true, segment_type := some "init",
    segment_data := some b }

/-- Downloaded media candidate of the concrete group with the given index
token and bytes. -/
def mkMediaCand (n : String) (b : List Nat) : MediaCandidate :=
  { url := .str (segMediaUrl n), is_video_segment := true, segment_type := some "media",
    segment_data := some b }

/-- Total form of the segment sort key (the raising form is only applied
where it succeeds). -/
def segNumOf (u : PyVal) : Nat :=
  match extractSegmentNumberV u with
  | .ok n => n
  | .error _ => 0

/-- Decoration of a candidate with its sort key. -/
def pairF (c : MediaCandidate) : MediaCandidate × Nat := (c, segNumOf c.url)

example (b : List Nat) : keyOfE (mkInitCand b) = .ok (some "abc0_profile_10") := rfl
example (b : List Nat) : keyOfE (mkMediaCand "2" b) = .ok (some "abc0_profile_10") := rfl
example (b : List Nat) : extractSegmentNumberV (mkMediaCand "2" b).url = .ok 2 := rfl
example (b : List Nat) : segNumOf (mkMediaCand "0" b).url = 0 := rfl
example (b : List Nat) : isInitC (mkInitCand b) = true := rfl
example (b : List Nat) : isInitC (mkMediaCand "1" b) = false := rfl
example (bi b0 b1 b2 : List Nat) :
    [mkInitCand bi, mkMediaCand "2" b2, mkMediaCand "0" b0,
      mkMediaCand "1" b1].filter isInitC = [mkInitCand bi] := rfl
example (bi b0 b1 b2 : List Nat) :
    [mkInitCand bi, mkMediaCand "2" b2, mkMediaCand "0" b0,
      mkMediaCand "1" b1].filter (fun c => !isInitC c)
    = [mkMediaCand "2" b2, mkMediaCand "0" b0, mkMediaCand "1" b1] := rfl

theorem segKeyed_of_all (segs : List MediaCandidate)
    (h : ∀ c ∈ segs, extractSegmentNumberV c.url = .ok (segNumOf c.url)) :
    segKeyed segs = some (segs.map pairF) := by
  induction segs with
  | nil => rfl
  | cons c rest ih =>
    unfold segKeyed
    rw [h c (List.mem_cons_self c rest), ih (fun x hx => h x (List.mem_cons_of_mem _ hx))]
    rfl

/-- C1: for any list holding exactly one init candidate and the three media
candidates of one group whose urls carry indices 2, 0 and 1 - in any order -
assembly produces exactly one stream whose bytes are the init bytes followed
by the index-0, index-1 and index-2 bytes in ascending index order with no
separators. -/
theorem C1_assembly_order (bi b0 b1 b2 : List Nat) (l : List MediaCandidate)
    (h : l.Perm [mkInitCand bi, mkMediaCand "2" b2, mkMediaCand "0" b0, mkMediaCand "1" b1]) :
    combineWebmSegments l = .ok [("abc0_profile_10", bi ++ (b0 ++ (b1 ++ b2)))] := by
  have hkey : ∀ c ∈ l, keyOfE c = .ok (some "abc0_profile_10") := by
    intro c hc
    have hm : c ∈ [mkInitCand bi, mkMediaCand "2" b2, mkMediaCand "0" b0,
        mkMediaCand "1" b1] := h.mem_iff.mp hc
    rcases List.mem_cons.mp hm with rfl | hm
    · rfl
    rcases List.mem_cons.mp hm with rfl | hm
    · rfl
    rcases List.mem_cons.mp hm with rfl | hm
    · rfl
    rcases List.mem_cons.mp hm with rfl | hm
    · rfl
    · simp at hm
  obtain ⟨chead, rest, rfl⟩ : ∃ chead rest, l = chead :: rest := by
    cases l with
    | nil => exact absurd h.length_eq (by simp)
    | cons a b => exact ⟨a, b, rfl⟩
  have hfI : (chead :: rest).filter isInitC = [mkInitCand bi] := by
    have hp := h.filter isInitC
    rw [show [mkInitCand bi, mkMediaCand "2" b2, mkMediaCand "0" b0,
        mkMediaCand "1" b1].filter isInitC = [mkInitCand bi] from rfl] at hp
    exact List.perm_singleton.mp hp
  have hfM : ((chead :: rest).filter (fun c => !isInitC c)).Perm
      [mkMediaCand "2" b2, mkMediaCand "0" b0, mkMediaCand "1" b1] := by
    have hp := h.filter (fun c => !isInitC c)
    rwa [show [mkInitCand bi, mkMediaCand "2" b2, mkMediaCand "0" b0,
        mkMediaCand "1" b1].filter (fun c => !isInitC c)
      = [mkMediaCand "2" b2, mkMediaCand "0" b0, mkMediaCand "1" b1] from rfl] at hp
  have hkeyed : segKeyed ((chead :: rest).filter (fun c => !isInitC c)) =
      some (((chead :: rest).filter (fun c => !isInitC c)).map pairF) := by
    apply segKeyed_of_all
    intro c hc
    have hm := hfM.mem_iff.mp hc
    rcases List.mem_cons.mp hm with rfl | hm
    · rfl
    rcases List.mem_cons.mp hm with rfl | hm
    · rfl
    rcases List.mem_cons.mp hm with rfl | hm
    · rfl
    · simp at hm
  have hsorted : List.insertionSort (fun a b => a.2 ≤ b.2)
      (((chead :: rest).filter (fun c => !isInitC c)).map pairF) =
      [(mkMediaCand "0" b0, 0), (mkMediaCand "1" b1, 1), (mkMediaCand "2" b2, 2)] := by
    apply insertionSortPairs_eq
    · refine (hfM.map pairF).trans ?_
      rw [show [mkMediaCand "2" b2, mkMediaCand "0" b0, mkMediaCand "1" b1].map pairF
        = [(mkMediaCand "2" b2, 2), (mkMediaCand "0" b0, 0), (mkMediaCand "1" b1, 1)] from rfl]
      exact (List.Perm.swap (mkMediaCand "0" b0, 0) (mkMediaCand "2" b2, 2)
          [(mkMediaCand "1" b1, 1)]).trans
        (List.Perm.cons (mkMediaCand "0" b0, 0)
          (List.Perm.swap (mkMediaCand "1" b1, 1) (mkMediaCand "2" b2, 2) []))
    · refine List.sorted_cons.mpr ⟨?_, List.sorted_cons.mpr ⟨?_, ?_⟩⟩
      · intro b hb
        rcases List.mem_cons.mp hb with rfl | hb
        · show (0 : Nat) ≤ 1
          omega
        rcases List.mem_cons.mp hb with rfl | hb
        · show (0 : Nat) ≤ 2
          omega
        · simp at hb
      · intro b hb
        rcases List.mem_cons.mp hb with rfl | hb
        · show (1 : Nat) ≤ 2
          omega
        · simp at hb
      · simp
    · rw [show [(mkMediaCand "0" b0, 0), (mkMediaCand "1" b1, 1),
          (mkMediaCand "2" b2, 2)].map (fun p => p.2) = [0, 1, 2] from rfl]
      decide
  unfold combineWebmSegments
  rw [buildGroupsAux_single_start "abc0_profile_10" chead rest hkey, exc_ok_bind, hfI]
  simp only [List.filterMap, assembleGroup, hkeyed, exc_pure]
  simp [hsorted, collectData, mkInitCand, mkMediaCand]

/-- C1 witness: the scrambled order 2, init, 0, 1 with concrete bytes. -/
theorem C1_assembly_order_witness :
    ([mkMediaCand "2" [22], mkInitCand [9], mkMediaCand "0" [20],
        mkMediaCand "1" [21]].Perm
      [mkInitCand [9], mkMediaCand "2" [22], mkMediaCand "0" [20], mkMediaCand "1" [21]]) ∧
    combineWebmSegments [mkMediaCand "2" [22], mkInitCand [9], mkMediaCand "0" [20],
        mkMediaCand "1" [21]]
      = .ok [("abc0_profile_10", [9] ++ ([20] ++ ([21] ++ [22])))] :=
  ⟨List.Perm.swap (mkInitCand [9]) (mkMediaCand "2" [22]) _,
   C1_assembly_order [9] [20] [21] [22] _
     (List.Perm.swap (mkInitCand [9]) (mkMediaCand "2" [22]) _)⟩

/-- C2 amended: a fetched candidate of the group whose url has final numeric
token 5 (not in the expected index set, and without the inits marker) is
classified with role unknown, but its bytes are nevertheless included in the
assembled stream: the grouping treats every flagged non-init candidate as a
media segment. -/
theorem C2_unknown_included (collab : Collab) (fetch : String → Option FetchResponse)
    (bi bu : List Nat)
    (hfi : fetch segInitUrl = some ⟨200, "video/webm", bi⟩)
    (hfu : fetch (segMediaUrl "5") = some ⟨200, "video/webm", bu⟩)
    (hbi : 100 < bi.length) (hbu : 100 < bu.length) :
    (downloadMedia collab fetch 0 { url := .str (segMediaUrl "5") }).1.segment_type
      = some "unknown" ∧
    combineWebmSegments
      [(downloadMedia collab fetch 0 { url := .str segInitUrl }).1,
       (downloadMedia collab fetch 0 { url := .str (segMediaUrl "5") }).1]
      = .ok [("abc0_profile_10", bi ++ bu)] := by
  have hdi : (downloadMedia collab fetch 0 ({ url := .str segInitUrl } : MediaCandidate)).1
      = { url := .str segInitUrl, is_video_segment := true, segment_type := some "init",
          segment_data := some bi } := by
    unfold downloadMedia
    simp only [hfi]
    have hgate : ((200 : Nat) == 200 && decide (100 < bi.length)) = true := by
      simp [hbi]
    rw [if_pos hgate]
    have hext : getFileExtension (.str (lowerAscii "video/webm")) bi = .ok ".webm" := rfl
    simp only [hext]
    have hfn : pyGenerateFilename collab segInitUrl ".webm" 0 = .ok "0.webm" := rfl
    simp only [hfn]
    rfl
  have hdu : (downloadMedia collab fetch 0
        ({ url := .str (segMediaUrl "5") } : MediaCandidate)).1
      = { url := .str (segMediaUrl "5"), is_video_segment := true,
          segment_type := some "unknown", segment_data := some bu } := by
    unfold downloadMedia
    simp only [hfu]
    have hgate : ((200 : Nat) == 200 && decide (100 < bu.length)) = true := by
      simp [hbu]
    rw [if_pos hgate]
    have hext : getFileExtension (.str (lowerAscii "video/webm")) bu = .ok ".webm" := rfl
    simp only [hext]
    have hfn : pyGenerateFilename collab (segMediaUrl "5") ".webm" 0 = .ok "5.webm" := rfl
    simp only [hfn]
    rfl
  rw [hdi, hdu]
  constructor
  · rfl
  · have : combineWebmSegments
        [{ url := .str segInitUrl, is_video_segment := true, segment_type := some "init",
           segment_data := some bi },
         { url := .str (segMediaUrl "5"), is_video_segment := true,
           segment_type := some "unknown", segment_data := some bu }]
        = .ok [("abc0_profile_10", bi ++ (bu ++ []))] := rfl
    rw [this]
    simp

/-- Concrete fetch collaborator answering the init url and every other url
with plausible webm bodies. -/
def fetchC2 : String → Option FetchResponse := fun u =>
  if u = segInitUrl then some ⟨200, "video/webm", List.replicate 101 7⟩
  else some ⟨200, "video/webm", List.replicate 101 8⟩

/-- C2 counterexample: with concrete bytes, the unknown-role candidate's 101
bytes of 8 appear in the assembled output after the init bytes - they are not
excluded from assembly as the claim states. -/
theorem C2_counterexample :
    (downloadMedia collab0 fetchC2 0 { url := .str (segMediaUrl "5") }).1.segment_type
      = some "unknown" ∧
    combineWebmSegments
      [(downloadMedia collab0 fetchC2 0 { url := .str segInitUrl }).1,
       (downloadMedia collab0 fetchC2 0 { url := .str (segMediaUrl "5") }).1]
      = .ok [("abc0_profile_10", List.replicate 101 7 ++ List.replicate 101 8)] :=
  ⟨rfl, by rfl⟩

/-- C2 witness for the amended statement at concrete bytes. -/
theorem C2_unknown_included_witness :
    (fetchC2 segInitUrl = some ⟨200, "video/webm", List.replicate 101 7⟩) ∧
    (fetchC2 (segMediaUrl "5") = some ⟨200, "video/webm", List.replicate 101 8⟩) ∧
    (100 < (List.replicate 101 (7 : Nat)).length) ∧
    (100 < (List.replicate 101 (8 : Nat)).length) ∧
    ((downloadMedia collab0 fetchC2 0 { url := .str (segMediaUrl "5") }).1.segment_type
        = some "unknown" ∧
      combineWebmSegments
        [(downloadMedia collab0 fetchC2 0 { url := .str segInitUrl }).1,
         (downloadMedia collab0 fetchC2 0 { url := .str (segMediaUrl "5") }).1]
        = .ok [("abc0_profile_10", List.replicate 101 7 ++ List.replicate 101 8)]) :=
  ⟨rfl, rfl, by decide, by decide,
   C2_unknown_included collab0 fetchC2 (List.replicate 101 7) (List.replicate 101 8)
     rfl rfl (by decide) (by decide)⟩

theorem downloadMedia_embedded (collab : Collab) (fetch : String → Option FetchResponse)
    (now : Nat) (c : MediaCandidate) (h : c.decoded_data.isSome = true) :
    (downloadMedia collab fetch now c).1 = c := by
  unfold downloadMedia
  rw [if_pos h]

theorem mkImageInfo_flag (collab : Collab) (rq rs e u : PyVal) (c : MediaCandidate)
    (h : mkImageInfo collab rq rs e u = .ok c) : c.is_video_segment = false := by
  unfold mkImageInfo at h
  simp only [Bind.bind, Except.bind, Pure.pure, Except.pure] at h
  repeat' split at h
  all_goals first
    | exact Except.noConfusion h
    | (injection h with h2; subst h2; rfl)

theorem mkVideoInfo_flag (collab : Collab) (rq rs e u : PyVal) (c : MediaCandidate)
    (h : mkVideoInfo collab rq rs e u = .ok c) : c.is_video_segment = false := by
  unfold mkVideoInfo at h
  simp only [Bind.bind, Except.bind, Pure.pure, Except.pure] at h
  repeat' split at h
  all_goals first
    | exact Except.noConfusion h
    | (injection h with h2; subst h2; rfl)

set_option maxHeartbeats 2000000 in
theorem processEntry_flag (collab : Collab) (entry : PyVal) (found : List String)
    (c : MediaCandidate) (found2 : List String)
    (h : processEntry collab entry found = (some c, found2)) :
    c.is_video_segment = false := by
  unfold processEntry at h
  rcases he : processEntryE collab entry found with e | r
  · rw [he] at h
    exact absurd (congrArg Prod.fst h).symm (by simp)
  · rw [he] at h
    obtain ⟨oc, f2⟩ := r
    have hoc : oc = some c := congrArg Prod.fst h
    subst hoc
    unfold processEntryE at he
    simp only [Bind.bind, Except.bind, Pure.pure, Except.pure] at he
    repeat' split at he
    all_goals first
      | exact Except.noConfusion he
      | (injection he with he2
         injection he2 with hoc2 hf2
         first
           | exact Option.noConfusion hoc2
           | (injection hoc2 with hv
              subst hv
              first
                | exact mkImageInfo_flag _ _ _ _ _ _ (by assumption)
                | exact mkVideoInfo_flag _ _ _ _ _ _ (by assumption)))

theorem extractLoop_flag (collab : Collab) (items : List PyVal) :
    ∀ (acc : List MediaCandidate × List String),
    (∀ c ∈ acc.1, c.is_video_segment = false) →
    ∀ c ∈ (extractLoop collab items acc).1, c.is_video_segment = false := by
  induction items with
  | nil => exact fun acc h c hc => h c hc
  | cons e rest ih =>
    intro acc h c hc
    obtain ⟨cs, found⟩ := acc
    unfold extractLoop at hc
    rcases hp : processEntry collab e found with ⟨oc, f2⟩
    rcases oc with _ | c0
    · simp only [hp] at hc
      exact ih (cs, f2) h c hc
    · simp only [hp] at hc
      refine ih (cs ++ [c0], f2) ?_ c hc
      intro x hx
      rcases List.mem_append.mp hx with hx | hx
      · exact h x hx
      · rw [List.mem_singleton.mp hx]
        exact processEntry_flag collab e found c0 f2 hp

theorem extract_flag (collab : Collab) (har : PyVal) (found : List String)
    (cands : List MediaCandidate) (found2 : List String)
    (h : extractSpotifyImages collab har found = .ok (cands, found2)) :
    ∀ c ∈ cands, c.is_video_segment = false := by
  unfold extractSpotifyImages at h
  simp only [Bind.bind, Except.bind, Pure.pure, Except.pure] at h
  repeat' split at h
  all_goals first
    | exact Except.noConfusion h
    | exact absurd trivial (by assumption)
    | (injection h with h2
       have ha := congrArg Prod.fst h2
       dsimp only at ha
       intro c hc
       rw [← ha] at hc
       first
         | simp at hc
         | exact extractLoop_flag collab _ _ (by intro x hx; simp at hx) c hc)

theorem keyOfE_unflagged (c : MediaCandidate) (h : c.is_video_segment = false) :
    keyOfE c = .ok none := by
  unfold keyOfE
  rw [h]
  rfl

theorem buildGroupsAux_cons (gs : List (String × SegGroup)) (c : MediaCandidate)
    (rest : List MediaCandidate) :
    buildGroupsAux gs (c :: rest) =
      match keyOfE c with
      | .error e => .error e
      | .ok none => buildGroupsAux gs rest
      | .ok (some k) => buildGroupsAux (addCandidate gs k c) rest := rfl

theorem buildGroupsAux_drop_embedded (collab : Collab)
    (fetch : String → Option FetchResponse) (now : Nat) (cands : List MediaCandidate) :
    ∀ (gs : List (String × SegGroup)),
    (∀ c ∈ cands, c.decoded_data.isSome = true → c.is_video_segment = false) →
    buildGroupsAux gs (cands.map (fun c => (downloadMedia collab fetch now c).1)) =
      buildGroupsAux gs ((cands.filter (fun c => c.decoded_data.isNone)).map
        (fun c => (downloadMedia collab fetch now c).1)) := by
  induction cands with
  | nil => intro gs _; rfl
  | cons c rest ih =>
    intro gs h
    have hrest := fun x hx => h x (List.mem_cons_of_mem _ hx)
    by_cases hd : c.decoded_data.isNone = true
    · rw [List.map_cons, List.filter_cons, if_pos (by simpa using hd), List.map_cons,
        buildGroupsAux_cons, buildGroupsAux_cons]
      rcases hk : keyOfE ((downloadMedia collab fetch now c).1) with e | o
      · simp only [hk]
      · rcases o with _ | k
        · simp only [hk]
          exact ih gs hrest
        · simp only [hk]
          exact ih _ hrest
    · have hsome : c.decoded_data.isSome = true := by
        rcases hdd : c.decoded_data with _ | d
        · rw [hdd] at hd
          simp at hd
        · rfl
      have hunch : (downloadMedia collab fetch now c).1 = c :=
        downloadMedia_embedded collab fetch now c hsome
      have hflag : c.is_video_segment = false := h c (List.mem_cons_self c rest) hsome
      rw [List.map_cons, List.filter_cons, if_neg (by simpa using hd),
        buildGroupsAux_cons, hunch, keyOfE_unflagged c hflag]
      exact ih gs hrest

/-- C10: no embedded-payload candidate ever contributes to an assembled
stream: extraction never flags candidates, download leaves embedded
candidates untouched (so they stay unflagged), and assembly is unchanged by
removing every embedded candidate from the processed list. -/
theorem C10_embedded_never_assembled (collab : Collab) (har : PyVal)
    (fetch : String → Option FetchResponse) (now : Nat)
    (cands : List MediaCandidate) (found : List String)
    (h : extractSpotifyImages collab har [] = .ok (cands, found)) :
    (∀ c ∈ cands, c.decoded_data.isSome = true →
      (downloadMedia collab fetch now c).1 = c ∧ c.is_video_segment = false) ∧
    combineWebmSegments (cands.map (fun c => (downloadMedia collab fetch now c).1)) =
      combineWebmSegments ((cands.filter (fun c => c.decoded_data.isNone)).map
        (fun c => (downloadMedia collab fetch now c).1)) := by
  have hflag := extract_flag collab har [] cands found h
  constructor
  · intro c hc hsome
    exact ⟨downloadMedia_embedded collab fetch now c hsome, hflag c hc⟩
  · unfold combineWebmSegments
    rw [buildGroupsAux_drop_embedded collab fetch now cands []
      (fun c hc _ => hflag c hc)]

/-- Collaborator instantiation whose base64 decoder succeeds with a fixed
payload, for exercising the embedded-candidate path. -/
def collabB : Collab :=
  ⟨fun _ => some [1, 2, 3], fun _ => none, fun _ => none,
   fun c => c.toNat = 233, fun _ => true, fun _ => true⟩

/-- Well-formed HAR entry carrying an embedded base64 image payload. -/
def entryEmb : HarEntry where
  url := "https://i.scdn.co/image/aa"
  content := { mimeType := "image/jpeg", text := some "AQID", encoding := some "base64" }

/-- Document holding the single embedded-payload entry. -/
def harEmb : PyVal := mkHar [entryEmb]

/-- Candidate list extracted from the embedded-payload document. -/
def candsEmb : List MediaCandidate :=
  match extractSpotifyImages collabB harEmb [] with
  | .ok r => r.1
  | .error _ => []

/-- C10 witness: on a document with one embedded-payload candidate, the
extraction hypothesis holds by computation and the conclusions follow. -/
theorem C10_embedded_never_assembled_witness :
    extractSpotifyImages collabB harEmb [] = .ok (candsEmb, []) ∧
    ((∀ c ∈ candsEmb, c.decoded_data.isSome = true →
        (downloadMedia collabB (fun _ => none) 0 c).1 = c ∧ c.is_video_segment = false) ∧
      combineWebmSegments
          (candsEmb.map (fun c => (downloadMedia collabB (fun _ => none) 0 c).1)) =
        combineWebmSegments ((candsEmb.filter (fun c => c.decoded_data.isNone)).map
          (fun c => (downloadMedia collabB (fun _ => none) 0 c).1))) :=
  ⟨by rfl, C10_embedded_never_assembled collabB harEmb (fun _ => none) 0 candsEmb [] (by rfl)⟩

theorem isPrefixOf_self {α : Type} [BEq α] [LawfulBEq α] (l : List α) :
    l.isPrefixOf l = true := by
  induction l with
  | nil => rfl
  | cons c rest ih => simp [List.isPrefixOf, ih]

theorem strContains_self (u : String) : strContains u u = true := by
  unfold strContains
  cases h : u.toList with
  | nil => rfl
  | cons c rest =>
    unfold listContains
    rw [isPrefixOf_self]
    rfl

theorem anyDomainIn_of_mem (ds : List String) (u : String) (h : u ∈ ds) :
    anyDomainIn ds (.str u) = .ok true := by
  induction ds with
  | nil => simp at h
  | cons d rest ih =>
    unfold anyDomainIn
    by_cases hc : strContains d u = true
    · simp [pyInV, exc_ok_bind, hc, exc_pure]
    · have hne : u ≠ d := by
        intro he
        subst he
        exact hc (strContains_self u)
      have hu : u ∈ rest := by
        rcases List.mem_cons.mp h with he | hr
        · exact absurd he hne
        · exact hr
      simp [pyInV, exc_ok_bind, hc, ih hu]

theorem extract_mkHar (collab : Collab) (es : List HarEntry) :
    extractSpotifyImages collab (mkHar es) [] =
      .ok (extractLoop collab (es.map HarEntry.toPyVal) ([], [])) := rfl

theorem findContentType_typed (hs : List HarHeader) :
    ∃ v, findContentType (hs.map (fun h =>
      PyVal.dict [("name", .str h.name), ("value", .str h.value)])) = .ok v := by
  induction hs with
  | nil => exact ⟨.str "", rfl⟩
  | cons h rest ih =>
    unfold findContentType
    by_cases hc : (lowerAscii h.name == "content-type") = true
    · have hceq : lowerAscii h.name = "content-type" := by simpa using hc
      refine ⟨.str h.value, ?_⟩
      simp [pyGet, lookupD, pyLowerV, exc_ok_bind, hceq]
    · have hcne : ¬ lowerAscii h.name = "content-type" := by simpa using hc
      obtain ⟨v, hv⟩ := ih
      refine ⟨v, ?_⟩
      simp [pyGet, lookupD, pyLowerV, exc_ok_bind, hcne, hv]

theorem mkImageInfo_url (collab : Collab) (rq rs e u : PyVal) (c : MediaCandidate)
    (h : mkImageInfo collab rq rs e u = .ok c) : c.url = u := by
  unfold mkImageInfo at h
  simp only [Bind.bind, Except.bind, Pure.pure, Except.pure] at h
  repeat' split at h
  all_goals first
    | exact Except.noConfusion h
    | (injection h with h2; subst h2; rfl)

theorem mkImageInfo_typed_ok (collab : Collab) (url method started m : String)
    (status bodySize : Int) (hdrs : List HarHeader) (t en : Option String) :
    ∃ c, mkImageInfo collab
      (.dict [("url", .str url), ("method", .str method)])
      (.dict [("status", .int status),
        ("headers", .list (hdrs.map (fun h =>
          PyVal.dict [("name", .str h.name), ("value", .str h.value)]))),
        ("content", HarContent.toPyVal ⟨m, t, en⟩), ("bodySize", .int bodySize)])
      (.dict [("request", .dict [("url", .str url), ("method", .str method)]),
        ("response", .dict [("status", .int status),
          ("headers", .list (hdrs.map (fun h =>
            PyVal.dict [("name", .str h.name), ("value", .str h.value)]))),
          ("content", HarContent.toPyVal ⟨m, t, en⟩), ("bodySize", .int bodySize)]),
        ("startedDateTime", .str started)])
      (.str url) = .ok c := by
  obtain ⟨ctv, hctv⟩ := findContentType_typed hdrs
  have hgc : getContentTypeV (.dict [("status", .int status),
      ("headers", .list (hdrs.map (fun h =>
        PyVal.dict [("name", .str h.name), ("value", .str h.value)]))),
      ("content", HarContent.toPyVal ⟨m, t, en⟩), ("bodySize", .int bodySize)]) = .ok ctv := by
    simp [getContentTypeV, pyGet, lookupD, pyIter, exc_ok_bind, hctv]
  cases t with
  | none =>
    cases en with
    | none =>
      simp [HarContent.toPyVal] at hgc
      unfold mkImageInfo
      simp [pyGet, lookupD, exc_ok_bind, exc_pure, hgc, HarContent.toPyVal, pyEqStr, pyTruthy]
    | some e2 =>
      simp [HarContent.toPyVal] at hgc
      unfold mkImageInfo
      by_cases hb : e2 = "base64"
      · subst hb
        simp [pyGet, lookupD, exc_ok_bind, exc_pure, hgc, HarContent.toPyVal, pyEqStr,
          pyTruthy]
      · simp [pyGet, lookupD, exc_ok_bind, exc_pure, hgc, HarContent.toPyVal, pyEqStr,
          pyTruthy, hb]
  | some tx =>
    cases en with
    | none =>
      simp [HarContent.toPyVal] at hgc
      unfold mkImageInfo
      simp [pyGet, lookupD, exc_ok_bind, exc_pure, hgc, HarContent.toPyVal, pyEqStr, pyTruthy]
    | some e2 =>
      simp [HarContent.toPyVal] at hgc
      unfold mkImageInfo
      by_cases hb : e2 = "base64"
      · subst hb
        by_cases htx : tx.isEmpty = true
        · simp [pyGet, lookupD, exc_ok_bind, exc_pure, hgc, HarContent.toPyVal, pyEqStr,
            pyTruthy, htx]
        · rcases h64 : collab.b64 tx with _ | bytes <;>
            simp [pyGet, lookupD, exc_ok_bind, exc_pure, hgc, HarContent.toPyVal, pyEqStr,
              pyTruthy, htx, h64]
      · simp [pyGet, lookupD, exc_ok_bind, exc_pure, hgc, HarContent.toPyVal, pyEqStr,
          pyTruthy, hb]

def strOfPy : PyVal → Option String
  | .str s => some s
  | _ => none

theorem processEntry_typed (collab : Collab) (e : HarEntry) (found : List String)
    (himg : isSpotifyImageUrlV (.str e.url) = .ok true) :
    ∃ c, processEntry collab e.toPyVal found = (some c, found) ∧ c.url = .str e.url := by
  obtain ⟨url, method, status, hdrs, cont, bodySize, started⟩ := e
  obtain ⟨m, t, en⟩ := cont
  obtain ⟨c, hc⟩ := mkImageInfo_typed_ok collab url method started m status bodySize hdrs t en
  refine ⟨c, ?_, mkImageInfo_url _ _ _ _ _ _ hc⟩
  unfold processEntry processEntryE
  simp [HarEntry.toPyVal, pyGet, lookupD, exc_ok_bind, exc_pure, himg, hc]

theorem extractLoop_typed (collab : Collab) (es : List HarEntry) :
    ∀ (cs : List MediaCandidate) (found : List String),
    (∀ e ∈ es, isSpotifyImageUrlV (.str e.url) = .ok true) →
    ∃ cands, extractLoop collab (es.map HarEntry.toPyVal) (cs, found) = (cs ++ cands, found) ∧
      cands.map MediaCandidate.url = es.map (fun e => PyVal.str e.url) := by
  induction es with
  | nil =>
    intro cs found _
    exact ⟨[], by simp [extractLoop], by simp⟩
  | cons e rest ih =>
    intro cs found h
    obtain ⟨c, hpc, hurl⟩ := processEntry_typed collab e found (h e (List.mem_cons_self e rest))
    obtain ⟨cands, hloop, hmap⟩ := ih (cs ++ [c]) found
      (fun x hx => h x (List.mem_cons_of_mem _ hx))
    refine ⟨c :: cands, ?_, ?_⟩
    · rw [List.map_cons]
      unfold extractLoop
      simp only [hpc]
      rw [hloop]
      simp
    · simp [hurl, hmap]

/-- C7: for a well-formed document whose entry request urls form exactly the
image-host set, the extracted candidate urls are, in order, the entry urls,
and their set is exactly the image-host set - no omissions and no extras; the
discovered-url accumulator stays empty. -/
theorem C7_image_host_candidates (collab : Collab) (es : List HarEntry)
    (h : (es.map HarEntry.url).toFinset = spotifyImageDomains.toFinset) :
    ∃ cands, extractSpotifyImages collab (mkHar es) [] = .ok (cands, []) ∧
      cands.map MediaCandidate.url = es.map (fun e => PyVal.str e.url) ∧
      (cands.filterMap (fun c => strOfPy c.url)).toFinset = spotifyImageDomains.toFinset := by
  have hmem : ∀ e ∈ es, e.url ∈ spotifyImageDomains := by
    intro e he
    have h1 : e.url ∈ (es.map HarEntry.url).toFinset :=
      List.mem_toFinset.mpr (List.mem_map_of_mem _ he)
    rw [h] at h1
    exact List.mem_toFinset.mp h1
  have himg : ∀ e ∈ es, isSpotifyImageUrlV (.str e.url) = .ok true :=
    fun e he => anyDomainIn_of_mem _ _ (hmem e he)
  obtain ⟨cands, hloop, hmap⟩ := extractLoop_typed collab es [] [] himg
  refine ⟨cands, ?_, hmap, ?_⟩
  · rw [extract_mkHar, hloop]
    simp
  · have hurls : cands.filterMap (fun c => strOfPy c.url) = es.map HarEntry.url := by
      have h2 : cands.filterMap (fun c => strOfPy c.url)
          = (cands.map MediaCandidate.url).filterMap strOfPy := by
        rw [List.filterMap_map]
        rfl
      rw [h2, hmap, List.filterMap_map]
      have h3 : (strOfPy ∘ fun e : HarEntry => PyVal.str e.url)
          = some ∘ HarEntry.url := rfl
      rw [h3]
      exact congrFun (List.filterMap_eq_map HarEntry.url) es
    rw [hurls, h]

/-- Eight entries whose request urls are exactly the image-host strings. -/
def c7Entries : List HarEntry := spotifyImageDomains.map (fun d => { url := d })

theorem C7_image_host_candidates_witness :
    (c7Entries.map HarEntry.url).toFinset = spotifyImageDomains.toFinset ∧
    ∃ cands, extractSpotifyImages collab0 (mkHar c7Entries) [] = .ok (cands, []) ∧
      cands.map MediaCandidate.url = c7Entries.map (fun e => PyVal.str e.url) ∧
      (cands.filterMap (fun c => strOfPy c.url)).toFinset = spotifyImageDomains.toFinset :=
  ⟨rfl, C7_image_host_candidates collab0 c7Entries rfl⟩
